import Mathlib

/-
Verification development for the ThroughPut frontend (BoardBot).

The TypeScript sources under src/frontend (state machines built with XState,
Zod schemas, JSON (de)serialization helpers) are shallowly embedded below.
JavaScript runtime values flowing through the serialization layer are
modelled by the inductive type JValue; JavaScript numbers are modelled by
exact rationals (Rat); Date objects are modelled symbolically by DateV.
Functions that can throw are modelled in the Except monad; functions that
return a Zod parse result are modelled in Option.
-/

namespace ThroughPut

/-- Model of a JavaScript Date value: either a concrete epoch-millisecond
date or the (unevaluated) result of parsing a string with the Date
constructor. -/
inductive DateV where
  | ofMs (ms : Int)
  | ofString (s : String)
deriving DecidableEq, Repr

/-- Model of JavaScript values that flow through the JSON serialization
layer: null, booleans, numbers, strings, Date objects, arrays, and plain
objects (as association lists of fields in insertion order).  A missing
field (JavaScript undefined) is modelled by Option.none at use sites. -/
inductive JValue where
  | jnull
  | jbool (b : Bool)
  | jnum (q : Rat)
  | jstr (s : String)
  | jdate (d : DateV)
  | jarr (elems : List JValue)
  | jobj (fields : List (String × JValue))

/-- Field access on an association list of object fields: the first binding
of the key wins (objects built below never hold duplicate keys). -/
def objGet : List (String × JValue) → String → Option JValue
  | [], _ => none
  | (k, v) :: rest, k₀ => if k = k₀ then some v else objGet rest k₀

/-- JavaScript property assignment `o[k] = v`: an existing key keeps its
position and gets the new value, a new key is appended at the end. -/
def objSet : List (String × JValue) → String → JValue → List (String × JValue)
  | [], k₀, v₀ => [(k₀, v₀)]
  | (k, v) :: rest, k₀, v₀ =>
      if k = k₀ then (k, v₀) :: rest else (k, v) :: objSet rest k₀ v₀

/-- JavaScript `delete o[k]`. -/
def objDelete : List (String × JValue) → String → List (String × JValue)
  | [], _ => []
  | (k, v) :: rest, k₀ => if k = k₀ then objDelete rest k₀ else (k, v) :: objDelete rest k₀

/-- JavaScript `k in o`. -/
def objHas (o : List (String × JValue)) (k : String) : Bool :=
  (objGet o k).isSome

/-- Property access on an arbitrary value: `v[k]`, undefined (none) when the
value is not an object or the key is missing. -/
def JValue.getF : JValue → String → Option JValue
  | .jobj fields, k => objGet fields k
  | _, _ => none

/-- Rebuild a JavaScript object from a list of entries by repeated
assignment (later entries overwrite earlier ones with the same key). -/
def objOfEntries (entries : List (String × JValue)) : List (String × JValue) :=
  entries.foldl (fun acc e => objSet acc e.1 e.2) []

/-- Modelled from the spec: the repository's `src/lib/caseConversion` module
is not among the provided sources; the spec describes it as "JSON-to-camelCase
key transformation" between camelCase and snake_case.  This converts one
camelCase key to snake_case: every uppercase letter becomes an underscore
followed by its lowercase form. -/
def camelToSnakeKey (s : String) : String :=
  String.mk (s.data.foldr (fun c acc => if c.isUpper then '_' :: c.toLower :: acc else c :: acc) [])

/-- Modelled from the spec (see camelToSnakeKey): helper turning the
character list of a snake_case key into camelCase. -/
def snakeToCamelChars : List Char → List Char
  | [] => []
  | '_' :: c :: rest => c.toUpper :: snakeToCamelChars rest
  | c :: rest => c :: snakeToCamelChars rest

/-- Modelled from the spec (see camelToSnakeKey): converts one snake_case
key to camelCase: an underscore is dropped and the letter after it is
capitalized. -/
def snakeToCamelKey (s : String) : String :=
  String.mk (snakeToCamelChars s.data)

/-- Modelled from the spec: `transformKeys(obj, dir)` from
`src/lib/caseConversion` renames the top-level keys of an object, leaving
values untouched; non-objects are returned unchanged. -/
def transformKeys (rename : String → String) : JValue → JValue
  | .jobj fields => .jobj (objOfEntries (fields.map (fun e => (rename e.1, e.2))))
  | v => v

mutual

/-- Modelled from the spec: `deepCamelCase` from `src/lib/caseConversion`
recursively renames every object key from snake_case to camelCase. -/
def deepCamelCase : JValue → JValue
  | .jnull => .jnull
  | .jbool b => .jbool b
  | .jnum q => .jnum q
  | .jstr s => .jstr s
  | .jdate d => .jdate d
  | .jarr elems => .jarr (deepCamelCaseList elems)
  | .jobj fields => .jobj (objOfEntries (deepCamelCaseEntries fields))

/-- Modelled from the spec (see deepCamelCase): recursion over array
elements. -/
def deepCamelCaseList : List JValue → List JValue
  | [] => []
  | v :: rest => deepCamelCase v :: deepCamelCaseList rest

/-- Modelled from the spec (see deepCamelCase): recursion over object
entries. -/
def deepCamelCaseEntries : List (String × JValue) → List (String × JValue)
  | [] => []
  | (k, v) :: rest => (snakeToCamelKey k, deepCamelCase v) :: deepCamelCaseEntries rest

end

/-! Enumerations from src/frontend/types (MODEL_VALUES, ARCHITECTURE_VALUES,
HISTORY_MANAGEMENT_VALUES) with their runtime string representations. -/

/-- The `Model` enum (`MODEL_VALUES` in src/frontend/types). -/
inductive Model where
  | gpt4o | gpt4oMini | gpt4Turbo | gpt35Turbo | claude3Sonnet | claude35Haiku
deriving DecidableEq, Repr

/-- Runtime string of a `Model` value. -/
def Model.toStr : Model → String
  | .gpt4o => "gpt-4o"
  | .gpt4oMini => "gpt-4o-mini"
  | .gpt4Turbo => "gpt-4-turbo"
  | .gpt35Turbo => "gpt-3.5-turbo"
  | .claude3Sonnet => "claude-3-sonnet-20240229"
  | .claude35Haiku => "claude-3-5-haiku-20241022"

/-- `ModelSchema.parse` on a JavaScript value: accepts exactly the six
model strings. -/
def parseModel : JValue → Option Model
  | .jstr s =>
      if s = "gpt-4o" then some .gpt4o
      else if s = "gpt-4o-mini" then some .gpt4oMini
      else if s = "gpt-4-turbo" then some .gpt4Turbo
      else if s = "gpt-3.5-turbo" then some .gpt35Turbo
      else if s = "claude-3-sonnet-20240229" then some .claude3Sonnet
      else if s = "claude-3-5-haiku-20241022" then some .claude35Haiku
      else none
  | _ => none

/-- The `Architecture` enum (`ARCHITECTURE_VALUES`). -/
inductive Architecture where
  | semanticRouter | llmRouter | hybridRouter | dynamicAgent
deriving DecidableEq, Repr

/-- Runtime string of an `Architecture` value. -/
def Architecture.toStr : Architecture → String
  | .semanticRouter => "semantic-router"
  | .llmRouter => "llm-router"
  | .hybridRouter => "hybrid-router"
  | .dynamicAgent => "dynamic-agent"

/-- `ArchitectureSchema.parse` on a JavaScript value. -/
def parseArchitecture : JValue → Option Architecture
  | .jstr s =>
      if s = "semantic-router" then some .semanticRouter
      else if s = "llm-router" then some .llmRouter
      else if s = "hybrid-router" then some .hybridRouter
      else if s = "dynamic-agent" then some .dynamicAgent
      else none
  | _ => none

/-- The `HistoryManagement` enum (`HISTORY_MANAGEMENT_VALUES`). -/
inductive HistoryManagement where
  | keepNone | keepLast5 | keepAll
deriving DecidableEq, Repr

/-- Runtime string of a `HistoryManagement` value. -/
def HistoryManagement.toStr : HistoryManagement → String
  | .keepNone => "keep-none"
  | .keepLast5 => "keep-last-5"
  | .keepAll => "keep-all"

/-- `HistoryManagementSchema.parse` on a JavaScript value. -/
def parseHistoryManagement : JValue → Option HistoryManagement
  | .jstr s =>
      if s = "keep-none" then some .keepNone
      else if s = "keep-last-5" then some .keepLast5
      else if s = "keep-all" then some .keepAll
      else none
  | _ => none

/-! Zod parser building blocks, mirroring how the Zod schemas below read
fields of a JavaScript object.  `Option (Option α)` models a field typed
`.optional().nullable()`: none is an absent field (undefined), some none is
null, some (some a) is a present value. -/

/-- `z.string().parse` on a value. -/
def parseStr : JValue → Option String
  | .jstr s => some s
  | _ => none

/-- `z.boolean().parse` on a value. -/
def parseBool : JValue → Option Bool
  | .jbool b => some b
  | _ => none

/-- `z.number().parse` on a value. -/
def parseNum : JValue → Option Rat
  | .jnum q => some q
  | _ => none

/-- `z.date().parse` on a value: only Date objects are accepted. -/
def parseDate : JValue → Option DateV
  | .jdate d => some d
  | _ => none

/-- `z.array(inner).parse` on a value. -/
def parseArr (inner : JValue → Option α) : JValue → Option (List α)
  | .jarr elems => elems.mapM inner
  | _ => none

/-- `z.record(...)` with unconstrained values: accepts any object and keeps
its fields. -/
def parseRecord : JValue → Option (List (String × JValue))
  | .jobj fields => some fields
  | _ => none

/-- A required object field, as read by `z.object`: the key must be present
and its value must parse. -/
def reqField (p : JValue → Option α) (o : List (String × JValue)) (k : String) : Option α :=
  (objGet o k).bind p

/-- An `.optional()` object field: an absent field is fine, a present one
must parse. -/
def optField (p : JValue → Option α) (o : List (String × JValue)) (k : String) :
    Option (Option α) :=
  match objGet o k with
  | none => some none
  | some v => (p v).map some

/-- An `.optional().nullable()` object field: absent and null are both
fine, any other value must parse. -/
def optNullField (p : JValue → Option α) (o : List (String × JValue)) (k : String) :
    Option (Option (Option α)) :=
  match objGet o k with
  | none => some none
  | some .jnull => some (some none)
  | some v => (p v).map (fun a => some (some a))

/-! Encoders: the JavaScript value underlying a typed record.  An absent
optional field produces no entry at all. -/

/-- Entry list of a required field. -/
def encReq (k : String) (v : JValue) : List (String × JValue) := [(k, v)]

/-- Entry list of an `.optional()` field: absent when none. -/
def encOpt (k : String) (v : Option JValue) : List (String × JValue) :=
  match v with
  | none => []
  | some j => [(k, j)]

/-- Entry list of an `.optional().nullable()` field: absent when none, null
when some none. -/
def encOptNull (enc : α → JValue) (k : String) (v : Option (Option α)) :
    List (String × JValue) :=
  match v with
  | none => []
  | some none => [(k, .jnull)]
  | some (some a) => [(k, enc a)]

/-! Product entities, src/frontend/types/productTypes.ts. -/

/-- The `Product` record (z.infer of `ProductSchema`).  Fields typed
`.optional().nullable()` are `Option (Option _)`: none is absent, some none
is null. -/
structure Product where
  id : Option (Option String)
  productId : String
  duplicateIds : Option (Option (List String))
  name : String
  manufacturer : String
  formFactor : String
  evaluationOrCommercialization : Option (Option String)
  processorArchitecture : Option (Option String)
  processorCoreCount : Option (Option String)
  processorManufacturer : Option (Option String)
  processorTdp : Option (Option String)
  memory : Option (Option String)
  onboardStorage : Option (Option String)
  inputVoltage : Option (Option String)
  ioCount : Option (Option (List String))
  wireless : Option (Option (List String))
  operatingSystemBsp : Option (Option (List String))
  operatingTemperatureMax : Option (Option String)
  operatingTemperatureMin : Option (Option String)
  certifications : Option (Option (List String))
  price : Option (Option String)
  stockAvailability : Option (Option String)
deriving Repr

/-- Identification and required fields of `ProductSchema`, parsed as one
group (the parse of the 22 schema fields is split into four groups purely so
each definition stays small; the combined behaviour is that of one
`z.object`). -/
structure ProductG0 where
  id : Option (Option String)
  productId : String
  duplicateIds : Option (Option (List String))
  name : String
  manufacturer : String
  formFactor : String

/-- Processor and memory fields of `ProductSchema` (see ProductG0). -/
structure ProductG1 where
  evaluationOrCommercialization : Option (Option String)
  processorArchitecture : Option (Option String)
  processorCoreCount : Option (Option String)
  processorManufacturer : Option (Option String)
  processorTdp : Option (Option String)
  memory : Option (Option String)

/-- Storage, electrical and connectivity fields of `ProductSchema` (see
ProductG0). -/
structure ProductG2 where
  onboardStorage : Option (Option String)
  inputVoltage : Option (Option String)
  ioCount : Option (Option (List String))
  wireless : Option (Option (List String))
  operatingSystemBsp : Option (Option (List String))
  operatingTemperatureMax : Option (Option String)

/-- Remaining fields of `ProductSchema` (see ProductG0). -/
structure ProductG3 where
  operatingTemperatureMin : Option (Option String)
  certifications : Option (Option (List String))
  price : Option (Option String)
  stockAvailability : Option (Option String)

/-- Parse of the ProductG0 fields from an object. -/
def productParseG0 (o : List (String × JValue)) : Option ProductG0 := do
  let id ← optNullField parseStr o "id"
  let productId ← reqField parseStr o "productId"
  let duplicateIds ← optNullField (parseArr parseStr) o "duplicateIds"
  let name ← reqField parseStr o "name"
  let manufacturer ← reqField parseStr o "manufacturer"
  let formFactor ← reqField parseStr o "formFactor"
  pure { id, productId, duplicateIds, name, manufacturer, formFactor }

/-- Parse of the ProductG1 fields from an object. -/
def productParseG1 (o : List (String × JValue)) : Option ProductG1 := do
  let evaluationOrCommercialization ← optNullField parseStr o "evaluationOrCommercialization"
  let processorArchitecture ← optNullField parseStr o "processorArchitecture"
  let processorCoreCount ← optNullField parseStr o "processorCoreCount"
  let processorManufacturer ← optNullField parseStr o "processorManufacturer"
  let processorTdp ← optNullField parseStr o "processorTdp"
  let memory ← optNullField parseStr o "memory"
  pure { evaluationOrCommercialization, processorArchitecture, processorCoreCount,
         processorManufacturer, processorTdp, memory }

/-- Parse of the ProductG2 fields from an object. -/
def productParseG2 (o : List (String × JValue)) : Option ProductG2 := do
  let onboardStorage ← optNullField parseStr o "onboardStorage"
  let inputVoltage ← optNullField parseStr o "inputVoltage"
  let ioCount ← optNullField (parseArr parseStr) o "ioCount"
  let wireless ← optNullField (parseArr parseStr) o "wireless"
  let operatingSystemBsp ← optNullField (parseArr parseStr) o "operatingSystemBsp"
  let operatingTemperatureMax ← optNullField parseStr o "operatingTemperatureMax"
  pure { onboardStorage, inputVoltage, ioCount, wireless, operatingSystemBsp,
         operatingTemperatureMax }

/-- Parse of the ProductG3 fields from an object. -/
def productParseG3 (o : List (String × JValue)) : Option ProductG3 := do
  let operatingTemperatureMin ← optNullField parseStr o "operatingTemperatureMin"
  let certifications ← optNullField (parseArr parseStr) o "certifications"
  let price ← optNullField parseStr o "price"
  let stockAvailability ← optNullField parseStr o "stockAvailability"
  pure { operatingTemperatureMin, certifications, price, stockAvailability }

/-- Assemble a `Product` from the four field groups. -/
def mkProduct (g0 : ProductG0) (g1 : ProductG1) (g2 : ProductG2) (g3 : ProductG3) :
    Product :=
  { id := g0.id, productId := g0.productId, duplicateIds := g0.duplicateIds,
    name := g0.name, manufacturer := g0.manufacturer, formFactor := g0.formFactor,
    evaluationOrCommercialization := g1.evaluationOrCommercialization,
    processorArchitecture := g1.processorArchitecture,
    processorCoreCount := g1.processorCoreCount,
    processorManufacturer := g1.processorManufacturer,
    processorTdp := g1.processorTdp, memory := g1.memory,
    onboardStorage := g2.onboardStorage, inputVoltage := g2.inputVoltage,
    ioCount := g2.ioCount, wireless := g2.wireless,
    operatingSystemBsp := g2.operatingSystemBsp,
    operatingTemperatureMax := g2.operatingTemperatureMax,
    operatingTemperatureMin := g3.operatingTemperatureMin,
    certifications := g3.certifications, price := g3.price,
    stockAvailability := g3.stockAvailability }

/-- `ProductSchema.parse` on a JavaScript value: requires an object with the
four required string fields productId, name, manufacturer and formFactor;
every other field is optional and nullable.  Unknown keys are stripped. -/
def productSchemaParse : JValue → Option Product
  | .jobj o => do
      let g0 ← productParseG0 o
      let g1 ← productParseG1 o
      let g2 ← productParseG2 o
      let g3 ← productParseG3 o
      pure (mkProduct g0 g1 g2 g3)
  | _ => none

/-- JavaScript string array value. -/
def encStrArr (xs : List String) : JValue :=
  .jarr (xs.map .jstr)

/-- The JavaScript object underlying a typed `Product` record. -/
def encodeProductFields (p : Product) : List (String × JValue) :=
  encOptNull .jstr "id" p.id ++
  encReq "productId" (.jstr p.productId) ++
  encOptNull encStrArr "duplicateIds" p.duplicateIds ++
  encReq "name" (.jstr p.name) ++
  encReq "manufacturer" (.jstr p.manufacturer) ++
  encReq "formFactor" (.jstr p.formFactor) ++
  encOptNull .jstr "evaluationOrCommercialization" p.evaluationOrCommercialization ++
  encOptNull .jstr "processorArchitecture" p.processorArchitecture ++
  encOptNull .jstr "processorCoreCount" p.processorCoreCount ++
  encOptNull .jstr "processorManufacturer" p.processorManufacturer ++
  encOptNull .jstr "processorTdp" p.processorTdp ++
  encOptNull .jstr "memory" p.memory ++
  encOptNull .jstr "onboardStorage" p.onboardStorage ++
  encOptNull .jstr "inputVoltage" p.inputVoltage ++
  encOptNull encStrArr "ioCount" p.ioCount ++
  encOptNull encStrArr "wireless" p.wireless ++
  encOptNull encStrArr "operatingSystemBsp" p.operatingSystemBsp ++
  encOptNull .jstr "operatingTemperatureMax" p.operatingTemperatureMax ++
  encOptNull .jstr "operatingTemperatureMin" p.operatingTemperatureMin ++
  encOptNull encStrArr "certifications" p.certifications ++
  encOptNull .jstr "price" p.price ++
  encOptNull .jstr "stockAvailability" p.stockAvailability

/-- The JavaScript value of a typed `Product` record. -/
def encodeProduct (p : Product) : JValue :=
  .jobj (encodeProductFields p)

/-- `productFromJson`: snake_case-to-camelCase key transformation followed by
`ProductSchema.parse`; throws "Invalid product data" when validation fails. -/
def productFromJson (productJson : JValue) : Except String Product :=
  match productSchemaParse (transformKeys snakeToCamelKey productJson) with
  | some p => .ok p
  | none => .error "Invalid product data"

/-- `productToJson`: camelCase-to-snake_case key transformation of the
product's underlying object. -/
def productToJson (product : Product) : JValue :=
  transformKeys camelToSnakeKey (encodeProduct product)

/-- The `ExpectedProduct` record (`ProductSchema.partial().required(name)`):
every attribute optional except `name`. -/
structure ExpectedProduct where
  id : Option (Option String)
  productId : Option String
  duplicateIds : Option (Option (List String))
  name : String
  manufacturer : Option String
  formFactor : Option String
  evaluationOrCommercialization : Option (Option String)
  processorArchitecture : Option (Option String)
  processorCoreCount : Option (Option String)
  processorManufacturer : Option (Option String)
  processorTdp : Option (Option String)
  memory : Option (Option String)
  onboardStorage : Option (Option String)
  inputVoltage : Option (Option String)
  ioCount : Option (Option (List String))
  wireless : Option (Option (List String))
  operatingSystemBsp : Option (Option (List String))
  operatingTemperatureMax : Option (Option String)
  operatingTemperatureMin : Option (Option String)
  certifications : Option (Option (List String))
  price : Option (Option String)
  stockAvailability : Option (Option String)
deriving Repr

/-! Chat message types, src/frontend/types (chatTypes). -/

/-- The content object of a response (`ResponseContentSchema`). -/
structure ResponseContent where
  type : String
  message : String
  products : Option (List Product)
  reasoning : Option String
  followUpQuestion : Option (Sum String (List String))
  metadata : Option (List (String × JValue))

/-- `z.union([z.string(), z.array(z.string())])` for followUpQuestion. -/
def parseFollowUp : JValue → Option (Sum String (List String))
  | .jstr s => some (.inl s)
  | .jarr elems => (elems.mapM parseStr).map .inr
  | _ => none

/-- `ResponseContentSchema.parse` on a JavaScript value. -/
def responseContentParse : JValue → Option ResponseContent
  | .jobj o => do
      let type ← reqField parseStr o "type"
      let message ← reqField parseStr o "message"
      let products ← optField (parseArr productSchemaParse) o "products"
      let reasoning ← optField parseStr o "reasoning"
      let followUpQuestion ← optField parseFollowUp o "followUpQuestion"
      let metadata ← optField parseRecord o "metadata"
      pure { type, message, products, reasoning, followUpQuestion, metadata }
  | _ => none

/-- The `ResponseMessage` record (z.infer of `ResponseMessageSchema`).  The
`isUserMessage` field is the literal false and is not stored. -/
structure ResponseMessage where
  messageId : String
  sessionId : String
  message : ResponseContent
  isComplete : Bool
  model : Model
  architectureChoice : Architecture
  historyManagementChoice : HistoryManagement
  timestamp : DateV

/-- The timestamp field of `ResponseMessageSchema`:
`z.union([z.date(), z.string()]).transform((val) => new Date(val))`. -/
def parseTimestampUnion : JValue → Option DateV
  | .jdate d => some d
  | .jstr s => some (.ofString s)
  | _ => none

/-- `ResponseMessageSchema.parse` on a JavaScript value. -/
def responseMessageSchemaParse : JValue → Option ResponseMessage
  | .jobj o => do
      let messageId ← reqField parseStr o "messageId"
      let sessionId ← reqField parseStr o "sessionId"
      let message ← reqField responseContentParse o "message"
      let isComplete ← reqField parseBool o "isComplete"
      let model ← reqField parseModel o "model"
      let architectureChoice ← reqField parseArchitecture o "architectureChoice"
      let historyManagementChoice ← reqField parseHistoryManagement o "historyManagementChoice"
      let _ ← reqField (fun v => match v with | .jbool false => some () | _ => none) o "isUserMessage"
      let timestamp ← reqField parseTimestampUnion o "timestamp"
      pure { messageId, sessionId, message, isComplete, model, architectureChoice,
             historyManagementChoice, timestamp }
  | _ => none

/-- The `RequestMessage` record (z.infer of `RequestMessageSchema`).  The
`isUserMessage` field is the literal true and is not stored. -/
structure RequestMessage where
  messageId : String
  timestamp : DateV
  isComplete : Bool
  model : Model
  architectureChoice : Architecture
  historyManagementChoice : HistoryManagement
  message : String

/-- `RequestMessageSchema.parse` on a JavaScript value (`BaseMessageSchema`
extended with the literal-true isUserMessage and a string message). -/
def requestMessageSchemaParse : JValue → Option RequestMessage
  | .jobj o => do
      let messageId ← reqField parseStr o "messageId"
      let timestamp ← reqField parseDate o "timestamp"
      let isComplete ← reqField parseBool o "isComplete"
      let model ← reqField parseModel o "model"
      let architectureChoice ← reqField parseArchitecture o "architectureChoice"
      let historyManagementChoice ← reqField parseHistoryManagement o "historyManagementChoice"
      let _ ← reqField (fun v => match v with | .jbool true => some () | _ => none) o "isUserMessage"
      let message ← reqField parseStr o "message"
      pure { messageId, timestamp, isComplete, model, architectureChoice,
             historyManagementChoice, message }
  | _ => none

/-- A chat history item: `z.union([RequestMessageSchema, ResponseMessageSchema])`. -/
def ChatHistoryItem : Type := Sum RequestMessage ResponseMessage

/-- `ChatHistoryItemSchema.parse`: the union tries the request schema first,
then the response schema. -/
def chatHistoryItemParse (v : JValue) : Option ChatHistoryItem :=
  match requestMessageSchemaParse v with
  | some r => some (.inl r)
  | none => (responseMessageSchemaParse v).map .inr

/-- The `RequestData` record (z.infer of `RequestDataSchema`). -/
structure RequestData where
  type : String
  sessionId : String
  messageId : String
  message : String
  timestamp : Option String
  model : Model
  architectureChoice : Architecture
  historyManagementChoice : HistoryManagement

/-- `RequestDataSchema.parse` on a JavaScript value. -/
def requestDataSchemaParse : JValue → Option RequestData
  | .jobj o => do
      let type ← reqField parseStr o "type"
      let sessionId ← reqField parseStr o "sessionId"
      let messageId ← reqField parseStr o "messageId"
      let message ← reqField parseStr o "message"
      let timestamp ← optField parseStr o "timestamp"
      let model ← reqField parseModel o "model"
      let architectureChoice ← reqField parseArchitecture o "architectureChoice"
      let historyManagementChoice ← reqField parseHistoryManagement o "historyManagementChoice"
      pure { type, sessionId, messageId, message, timestamp, model, architectureChoice,
             historyManagementChoice }
  | _ => none

/-! Encoders for the chat message types. -/

/-- The fields of the JavaScript object underlying a typed
`ResponseContent` record. -/
def encodeResponseContentFields (c : ResponseContent) : List (String × JValue) :=
  encReq "type" (.jstr c.type) ++
    encReq "message" (.jstr c.message) ++
    encOpt "products" (c.products.map (fun ps => .jarr (ps.map encodeProduct))) ++
    encOpt "reasoning" (c.reasoning.map .jstr) ++
    encOpt "followUpQuestion" (c.followUpQuestion.map (fun f =>
      match f with
      | .inl s => .jstr s
      | .inr xs => encStrArr xs)) ++
    encOpt "metadata" (c.metadata.map .jobj)

/-- The JavaScript object underlying a typed `ResponseContent` record. -/
def encodeResponseContent (c : ResponseContent) : JValue :=
  .jobj (encodeResponseContentFields c)

/-- The fields of the JavaScript object underlying a typed
`ResponseMessage` record. -/
def encodeResponseMessageFields (m : ResponseMessage) : List (String × JValue) :=
  encReq "messageId" (.jstr m.messageId) ++
    encReq "sessionId" (.jstr m.sessionId) ++
    encReq "message" (encodeResponseContent m.message) ++
    encReq "isComplete" (.jbool m.isComplete) ++
    encReq "model" (.jstr m.model.toStr) ++
    encReq "architectureChoice" (.jstr m.architectureChoice.toStr) ++
    encReq "historyManagementChoice" (.jstr m.historyManagementChoice.toStr) ++
    encReq "isUserMessage" (.jbool false) ++
    encReq "timestamp" (.jdate m.timestamp)

/-- The JavaScript object underlying a typed `ResponseMessage` record. -/
def encodeResponseMessage (m : ResponseMessage) : JValue :=
  .jobj (encodeResponseMessageFields m)

/-- The fields of the JavaScript object underlying a typed
`RequestMessage` record. -/
def encodeRequestMessageFields (m : RequestMessage) : List (String × JValue) :=
  encReq "messageId" (.jstr m.messageId) ++
    encReq "timestamp" (.jdate m.timestamp) ++
    encReq "isComplete" (.jbool m.isComplete) ++
    encReq "model" (.jstr m.model.toStr) ++
    encReq "architectureChoice" (.jstr m.architectureChoice.toStr) ++
    encReq "historyManagementChoice" (.jstr m.historyManagementChoice.toStr) ++
    encReq "isUserMessage" (.jbool true) ++
    encReq "message" (.jstr m.message)

/-- The JavaScript object underlying a typed `RequestMessage` record. -/
def encodeRequestMessage (m : RequestMessage) : JValue :=
  .jobj (encodeRequestMessageFields m)

/-- The JavaScript value underlying a chat history item. -/
def encodeChatHistoryItem : ChatHistoryItem → JValue
  | .inl r => encodeRequestMessage r
  | .inr r => encodeResponseMessage r

/-- The JavaScript object underlying a typed `RequestData` record. -/
def encodeRequestData (d : RequestData) : JValue :=
  .jobj (encReq "type" (.jstr d.type) ++
    encReq "sessionId" (.jstr d.sessionId) ++
    encReq "messageId" (.jstr d.messageId) ++
    encReq "message" (.jstr d.message) ++
    encOpt "timestamp" (d.timestamp.map .jstr) ++
    encReq "model" (.jstr d.model.toStr) ++
    encReq "architectureChoice" (.jstr d.architectureChoice.toStr) ++
    encReq "historyManagementChoice" (.jstr d.historyManagementChoice.toStr))

/-- `requestDataToJson`: camelCase-to-snake_case key transformation of a
request's underlying object. -/
def requestDataToJson (data : RequestData) : JValue :=
  transformKeys camelToSnakeKey (encodeRequestData data)

/-- `requestDataFromJson`: snake_case-to-camelCase key transformation
followed by `RequestDataSchema.parse` (a Zod failure throws). -/
def requestDataFromJson (json : JValue) : Except String RequestData :=
  match requestDataSchemaParse (transformKeys snakeToCamelKey json) with
  | some d => .ok d
  | none => .error "Invalid request data"

/-! `responseMessageFromJson`, src/frontend/types, modelled step by step.
JSON.parse is a JavaScript builtin, so it is passed in as a function
`jsparse : String → Option JValue` (none models a parse error). -/

/-- Step of `responseMessageFromJson`: if the message field is a string it
is JSON-parsed (throwing "Invalid message format" on a parse failure), and
the message field is then passed through deepCamelCase. -/
def normalizeMessageField (jsparse : String → Option JValue)
    (o : List (String × JValue)) : Except String (List (String × JValue)) := do
  let o1 ←
    match objGet o "message" with
    | some (.jstr s) =>
        match jsparse s with
        | some v => Except.ok (objSet o "message" v)
        | none => Except.error "Invalid message format"
    | _ => Except.ok o
  match objGet o1 "message" with
  | some v => Except.ok (objSet o1 "message" (deepCamelCase v))
  | none => Except.ok o1

/-- Step of `responseMessageFromJson`: inside an object-valued message
field, the `response` field is renamed to `message` when `message` is
undefined and `response` is present. -/
def renameResponseField (o : List (String × JValue)) : List (String × JValue) :=
  match objGet o "message" with
  | some (.jobj mf) =>
      match objGet mf "message", objGet mf "response" with
      | none, some rv => objSet o "message" (.jobj (objDelete (objSet mf "message" rv) "response"))
      | _, _ => o
  | _ => o

/-- Step of `responseMessageFromJson`: a top-level `id` becomes `messageId`
when `messageId` is absent. -/
def fixMessageId (o : List (String × JValue)) : List (String × JValue) :=
  match objGet o "id", objHas o "messageId" with
  | some idv, false => objDelete (objSet o "messageId" idv) "id"
  | _, _ => o

/-- Step of `responseMessageFromJson`: a missing `isUserMessage` defaults to
false. -/
def defaultIsUserMessage (o : List (String × JValue)) : List (String × JValue) :=
  match objGet o "isUserMessage" with
  | none => objSet o "isUserMessage" (.jbool false)
  | some _ => o

/-- `responseMessageFromJson`: snake_case-to-camelCase key transformation,
message-field normalization, the three fix-up steps, then
`ResponseMessageSchema.parse`; every failure is rethrown by the surrounding
try/catch as "Invalid response data".  A non-object input makes the
normalization steps throw at runtime, which the same catch turns into
"Invalid response data". -/
def responseMessageFromJson (jsparse : String → Option JValue) (json : JValue) :
    Except String ResponseMessage :=
  match transformKeys snakeToCamelKey json with
  | .jobj o =>
      match normalizeMessageField jsparse o with
      | .error _ => .error "Invalid response data"
      | .ok o1 =>
          match responseMessageSchemaParse
              (.jobj (defaultIsUserMessage (fixMessageId (renameResponseField o1)))) with
          | some m => .ok m
          | none => .error "Invalid response data"
  | _ => .error "Invalid response data"

/-- `responseMessageToJson`: camelCase-to-snake_case key transformation of a
response's underlying object. -/
def responseMessageToJson (data : ResponseMessage) : JValue :=
  transformKeys camelToSnakeKey (encodeResponseMessage data)

/-! Helper functions of the accuracy test runner (src/unnamed/part_008). -/

/-- `calculateProductAccuracy`: 1 when there are no expected products,
otherwise the number of actual products whose lowercased name occurs among
the expected names, divided by the number of expected products.  The
expected products are the test case's `ExpectedProduct` records (the call
site passes them directly); the JavaScript Set of names is modelled by the
deduplicated name list (membership is unchanged by deduplication).  An
EMPTY expected array is truthy in JavaScript, so it passes the
`!expectedProducts` guard and the division computes 0 / 0 = NaN (the filter
over an empty name set is empty, so the numerator is always 0 when the
denominator is): that NaN result is modelled as `none`, every other result
as `some` of the rational ratio. -/
def calculateProductAccuracy (actualProducts : List Product)
    (expectedProducts : Option (List ExpectedProduct)) : Option Rat :=
  match expectedProducts with
  | none => some 1
  | some expected =>
      let expectedProductNames := (expected.map (fun p => p.name.toLower)).dedup
      let matchedProducts :=
        actualProducts.filter (fun p => expectedProductNames.contains p.name.toLower)
      if expected.length = 0 then none
      else some ((matchedProducts.length : Rat) / (expected.length : Rat))

/-- `isTestPassed`: the accuracy threshold is 0.4. -/
def isTestPassed (productAccuracy : Rat) : Bool :=
  decide (productAccuracy > (0.4 : Rat))

/-! `longestCommonSubsequence` (src/unnamed/part_008): the dynamic program
fills dp[i][j] for prefixes of lengths i and j; `lcsDP a1 a2 i j` is the
value the nested loops store in dp[i][j] (each entry is computed from the
already-filled entries by the recurrence the loop body evaluates). -/

/-- Value of the dp table entry dp[i][j] of `longestCommonSubsequence`. -/
def lcsDP (a1 a2 : List String) : Nat → Nat → Nat
  | 0, _ => 0
  | _ + 1, 0 => 0
  | i + 1, j + 1 =>
      if a1.getD i "" = a2.getD j "" then lcsDP a1 a2 i j + 1
      else max (lcsDP a1 a2 i (j + 1)) (lcsDP a1 a2 (i + 1) j)
  termination_by i j => (i, j)

/-- `longestCommonSubsequence(arr1, arr2)` returns dp[m][n]. -/
def longestCommonSubsequence (arr1 arr2 : List String) : Nat :=
  lcsDP arr1 arr2 arr1.length arr2.length

/-- Reference definition: the standard recursive length of a longest common
subsequence, peeling elements from the front. -/
def lcsSpec : List String → List String → Nat
  | [], _ => 0
  | _ :: _, [] => 0
  | x :: xs, y :: ys =>
      if x = y then lcsSpec xs ys + 1
      else max (lcsSpec xs (y :: ys)) (lcsSpec (x :: xs) ys)
  termination_by a b => (a, b)

/-! Test cases (src/frontend/types/testTypes.ts). -/

/-- The `TestType` enum (`TEST_TYPES`). -/
inductive TestType where
  | accuracy | consistency | featureInference | contextRetention | robustness
  | conversationalFlow | defensibility
deriving DecidableEq, Repr

/-- Runtime string of a `TestType` value. -/
def TestType.toStr : TestType → String
  | .accuracy => "accuracy"
  | .consistency => "consistency"
  | .featureInference => "feature_inference"
  | .contextRetention => "context_retention"
  | .robustness => "robustness"
  | .conversationalFlow => "conversational_flow"
  | .defensibility => "defensibility"

/-- One conversation turn of a test case. -/
structure ConversationTurn where
  turn : Rat
  query : String
  expected_filters : Option (List (String × JValue))
  message : Option String

/-- The `TestCase` record (z.infer of `TestCaseSchema`). -/
structure TestCase where
  messageId : String
  prompt : String
  testType : TestType
  description : String
  products : Option (List ExpectedProduct)
  variations : Option (List String)
  conversation : Option (List ConversationTurn)
  expected_filters : Option (List (String × JValue))
  category : Option String
  metadata : Option (List (String × JValue))
  tags : Option (List String)

/-- An accuracy test result as constructed by `updateTestResults` (the
constructed object also carries the `passed` flag). -/
structure AccuracyTestResult where
  response : ResponseMessage
  productAccuracy : Option Rat
  passed : Bool

/-! The webSocketMachine (src/frontend/machines/webSocketMachine.ts). -/

/-- `MAX_RECONNECTION_ATTEMPTS`. -/
def MAX_RECONNECTION_ATTEMPTS : Nat := 5

/-- `RECONNECTION_DELAY` in milliseconds. -/
def RECONNECTION_DELAY : Nat := 2000

/-- The webSocketMachine context: the socket handle is reduced to whether
one is held. -/
structure WebSocketContext where
  socket : Option Unit
  sessionId : Option String
  reconnectionAttempts : Nat
deriving DecidableEq, Repr

/-- The initial webSocketMachine context. -/
def webSocketInitialContext : WebSocketContext :=
  { socket := none, sessionId := none, reconnectionAttempts := 0 }

/-- The non-transient states of the webSocketMachine (`reconnecting` and
`disconnecting` resolve through always-transitions within one step). -/
inductive WSState where
  | idle | connecting | connected
deriving DecidableEq, Repr

/-- A notification emitted by a machine (the payload of an emitted
"notification" event). -/
inductive Notification where
  | success (message : String)
  | error (message : String)
deriving DecidableEq, Repr

/-- A message the machine sends to its parent actor. -/
inductive WSParentMsg where
  | connectedMsg
  | messageReceived (data : ResponseMessage)
  | disconnectedMsg

/-- Events handled by the webSocketMachine: the parent actor's commands,
the two outcomes of the socketConnector invocation, and the socketListener
callbacks. -/
inductive WSEvent where
  | parentConnect (sessionId : String)
  | connectorDone
  | connectorError
  | parentSendMessage (data : RequestData)
  | listenerMessageReceived (data : ResponseMessage)
  | listenerDisconnected
  | parentDisconnect

/-- Result of one webSocketMachine step: the settled state, the context,
and the observable effects (notifications, parent messages, emitted wire
messages, and how many socket connection attempts were initiated). -/
structure WSStepResult where
  state : WSState
  context : WebSocketContext
  notifications : List Notification
  parentMessages : List WSParentMsg
  sent : List JValue
  connectionAttempts : Nat

/-- A step result with no effects. -/
def wsNoEffects (s : WSState) (ctx : WebSocketContext) : WSStepResult :=
  { state := s, context := ctx, notifications := [], parentMessages := [], sent := [],
    connectionAttempts := 0 }

/-- Entry into the transient `reconnecting` state: the entry action
increments reconnectionAttempts, then the always-transition takes the
`canReconnect`-guarded branch to idle (emitting the failure notification)
and otherwise falls through to connecting. -/
def resolveReconnecting (ctx : WebSocketContext) : WSStepResult :=
  let ctx1 := { ctx with reconnectionAttempts := ctx.reconnectionAttempts + 1 }
  if ctx1.reconnectionAttempts < MAX_RECONNECTION_ATTEMPTS then
    { state := .idle, context := ctx1,
      notifications := [.error "Failed to reconnect after multiple attempts"],
      parentMessages := [], sent := [], connectionAttempts := 0 }
  else
    { state := .connecting, context := ctx1, notifications := [], parentMessages := [],
      sent := [], connectionAttempts := 1 }

/-- The `sendMessage` action: re-validates the event data with the
machine's sessionId spliced in, then emits the snake_case JSON envelope on
the socket; a Zod failure throws. -/
def sendMessage (ctx : WebSocketContext) (data : RequestData) : Except String JValue :=
  let sessionVal : JValue :=
    match ctx.sessionId with
    | some s => .jstr s
    | none => .jnull
  match encodeRequestData data with
  | .jobj fields =>
      match requestDataSchemaParse (.jobj (objSet fields "sessionId" sessionVal)) with
      | some message => .ok (requestDataToJson message)
      | none => .error "ZodError: sessionId validation failed"
  | _ => .error "unreachable"

/-- One step of the webSocketMachine on an event, with the transient
states resolved; an exception thrown by an action surfaces as an error. -/
def webSocketStep (s : WSState) (ctx : WebSocketContext) (e : WSEvent) :
    Except String WSStepResult :=
  match s, e with
  | .idle, .parentConnect sid =>
      .ok { state := .connecting,
            context := { ctx with sessionId := some sid, reconnectionAttempts := 0 },
            notifications := [], parentMessages := [], sent := [], connectionAttempts := 1 }
  | .connecting, .connectorDone =>
      .ok { state := .connected, context := { ctx with socket := some () },
            notifications := [.success "Connected to the server"],
            parentMessages := [.connectedMsg], sent := [], connectionAttempts := 0 }
  | .connecting, .connectorError =>
      let r := resolveReconnecting ctx
      .ok { r with
            notifications := .error "Failed to connect to the server" :: r.notifications }
  | .connected, .parentSendMessage d =>
      (sendMessage ctx d).map (fun j => { wsNoEffects .connected ctx with sent := [j] })
  | .connected, .listenerMessageReceived m =>
      .ok { wsNoEffects .connected ctx with parentMessages := [.messageReceived m] }
  | .connected, .listenerDisconnected => .ok (resolveReconnecting ctx)
  | .connected, .parentDisconnect =>
      .ok { wsNoEffects .idle ctx with parentMessages := [.disconnectedMsg] }
  | _, _ => .ok (wsNoEffects s ctx)

/-! The accuracyTestRunnerMachine (src/unnamed/part_008). -/

/-- The accuracyTestRunnerMachine context; the spawned webSocket actor is
reduced to whether a reference is held. -/
structure AccuracyContext where
  webSocketRef : Option Unit
  name : String
  sessionId : String
  testCases : List TestCase
  testResults : List AccuracyTestResult
  currentTestIndex : Nat
  batchSize : Rat
  testTimeout : Rat
  progress : Rat
  model : Model
  architecture : Architecture
  historyManagement : HistoryManagement

/-- The machine's context for a fresh run (no restored state in the input):
the `||` defaults of the context factory, with the webSocket actor spawned
by the idle state's entry action. -/
def accInitialContext (name sessionId : String) (testCases : List TestCase)
    (model : Model) (architecture : Architecture)
    (historyManagement : HistoryManagement) : AccuracyContext :=
  { webSocketRef := some (), name, sessionId, testCases, testResults := [],
    currentTestIndex := 0, batchSize := 1, testTimeout := 10000, progress := 0,
    model, architecture, historyManagement }

/-- The non-transient states of the accuracyTestRunnerMachine
(`running.evaluatingResult` resolves through always-transitions within one
step). -/
inductive AccState where
  | idle | connecting | runningSendingMessage | runningPaused | disconnecting
deriving DecidableEq, Repr

/-- Events handled by the accuracyTestRunnerMachine. -/
inductive AccEvent where
  | userStartTest
  | webSocketConnected
  | userPauseTest
  | webSocketMessageReceived (data : ResponseMessage)
  | userContinueTest
  | userStopTest
  | webSocketDisconnected

/-- Result of one accuracyTestRunnerMachine step: the settled state, the
context, the requests sent to the webSocket actor, and whether connect /
disconnect commands were sent to it. -/
structure AccStepResult where
  state : AccState
  context : AccuracyContext
  sentRequests : List RequestData
  sentConnect : Bool
  sentDisconnect : Bool

/-- The `sendNextMessage` action: builds the request for the current test
case (validated by `RequestDataSchema.parse`, which accepts this fully
populated object) with `new Date().toISOString()` passed in as `now`;
an out-of-range index is a thrown TypeError. -/
def accSendNextMessage (now : String) (ctx : AccuracyContext) :
    Except String RequestData :=
  match ctx.testCases.get? ctx.currentTestIndex with
  | none => .error "TypeError: no test case at currentTestIndex"
  | some tc =>
      .ok { type := "textMessage", sessionId := ctx.sessionId,
            messageId := tc.messageId, message := tc.prompt, timestamp := some now,
            model := ctx.model, architectureChoice := ctx.architecture,
            historyManagementChoice := .keepNone }

/-- The `updateTestResults` action: throws when the current test case has
no expected products; `testResponse.message.products` is passed to
`calculateProductAccuracy` as the actual product list, which is a thrown
TypeError at runtime when that field is undefined.  A NaN accuracy (empty
expected list, modelled as `none`) gives `passed = false`, since
`NaN > 0.4` is false in JavaScript. -/
def accUpdateTestResults (ctx : AccuracyContext) (r : ResponseMessage) :
    Except String (List AccuracyTestResult) :=
  match ctx.testCases.get? ctx.currentTestIndex with
  | none => .error "TypeError: no test case at currentTestIndex"
  | some tc =>
      match tc.products with
      | none => .error "Test case has no expected products"
      | some _ =>
          match r.message.products with
          | none => .error "TypeError: actualProducts is undefined"
          | some actual =>
              let productAccuracy := calculateProductAccuracy actual tc.products
              .ok (ctx.testResults ++
                [{ response := r, productAccuracy,
                   passed := (productAccuracy.map isTestPassed).getD false }])

/-- The `testIsComplete` guard: `currentTestIndex >= testCases.length - 1`,
evaluated in JavaScript arithmetic (no truncation at zero). -/
def accTestIsComplete (ctx : AccuracyContext) : Bool :=
  decide ((ctx.currentTestIndex : Int) ≥ (ctx.testCases.length : Int) - 1)

/-- Entry into the transient `running.evaluatingResult` state: complete
runs disconnect, otherwise the next message is sent and the machine waits
in `running.sendingMessage`. -/
def accResolveEvaluating (now : String) (ctx : AccuracyContext) :
    Except String AccStepResult :=
  if accTestIsComplete ctx then
    .ok { state := .disconnecting, context := ctx, sentRequests := [],
          sentConnect := false, sentDisconnect := true }
  else
    (accSendNextMessage now ctx).map (fun req =>
      { state := .runningSendingMessage, context := ctx, sentRequests := [req],
        sentConnect := false, sentDisconnect := false })

/-- A step result with no effects. -/
def accNoEffects (s : AccState) (ctx : AccuracyContext) : AccStepResult :=
  { state := s, context := ctx, sentRequests := [], sentConnect := false,
    sentDisconnect := false }

/-- One step of the accuracyTestRunnerMachine on an event, with the
transient state resolved; an exception thrown by an action surfaces as an
error. -/
def accStep (now : String) (s : AccState) (ctx : AccuracyContext) (e : AccEvent) :
    Except String AccStepResult :=
  match s, e with
  | .idle, .userStartTest =>
      .ok { accNoEffects .connecting ctx with sentConnect := true }
  | .connecting, .webSocketConnected =>
      (accSendNextMessage now ctx).map (fun req =>
        { accNoEffects .runningSendingMessage ctx with sentRequests := [req] })
  | .runningSendingMessage, .webSocketMessageReceived r => do
      let results ← accUpdateTestResults ctx r
      let idx := ctx.currentTestIndex + 1
      let progress := ((idx : Rat) + 1) / (ctx.testCases.length : Rat) * 100
      accResolveEvaluating now
        { ctx with testResults := results, currentTestIndex := idx, progress }
  | .runningSendingMessage, .userStopTest =>
      .ok { accNoEffects .disconnecting ctx with sentDisconnect := true }
  | .runningSendingMessage, .userPauseTest =>
      .ok (accNoEffects .runningPaused ctx)
  | .runningPaused, .userStopTest =>
      .ok { accNoEffects .disconnecting ctx with sentDisconnect := true }
  | .runningPaused, .userContinueTest =>
      (accSendNextMessage now ctx).map (fun req =>
        { accNoEffects .runningSendingMessage ctx with sentRequests := [req] })
  | .disconnecting, .webSocketDisconnected =>
      .ok (accNoEffects .idle { ctx with webSocketRef := some () })
  | _, _ => .ok (accNoEffects s ctx)

/-- Run the machine over a list of events, keeping the settled state and
context. -/
def accRun (now : String) : AccState × AccuracyContext → List AccEvent →
    Except String (AccState × AccuracyContext)
  | sc, [] => .ok sc
  | (s, ctx), e :: rest => do
      let r ← accStep now s ctx e
      accRun now (r.state, r.context) rest

/-! Chat state persistence (chatMachine, src/unnamed/part_008). -/

/-- The chatMachine context (z.infer of `ChatContextSchema`); the
`webSocketRef` field is `z.any()` and holds an actor reference at runtime,
modelled as an arbitrary JavaScript value when present. -/
structure ChatContext where
  sessionId : String
  webSocketRef : Option JValue
  chatHistory : List ChatHistoryItem
  model : Model
  architecture : Architecture
  historyManagement : HistoryManagement

/-- `ChatContextSchema.parse` on a JavaScript value; `webSocketRef` is
`z.any()`, which also accepts an absent field. -/
def chatContextSchemaParse : JValue → Option ChatContext
  | .jobj o => do
      let sessionId ← reqField parseStr o "sessionId"
      let webSocketRef := objGet o "webSocketRef"
      let chatHistory ← reqField (parseArr chatHistoryItemParse) o "chatHistory"
      let model ← reqField parseModel o "model"
      let architecture ← reqField parseArchitecture o "architecture"
      let historyManagement ← reqField parseHistoryManagement o "historyManagement"
      pure { sessionId, webSocketRef, chatHistory, model, architecture, historyManagement }
  | _ => none

/-- The fields of the object produced by `serializeChatState`. -/
def serializeChatStateFields (c : ChatContext) (currentState : JValue) :
    List (String × JValue) :=
  encReq "sessionId" (.jstr c.sessionId) ++
    encReq "chatHistory" (.jarr (c.chatHistory.map encodeChatHistoryItem)) ++
    encReq "model" (.jstr c.model.toStr) ++
    encReq "architecture" (.jstr c.architecture.toStr) ++
    encReq "historyManagement" (.jstr c.historyManagement.toStr) ++
    encReq "currentState" currentState

/-- `serializeChatState`: the snapshot's context fields plus the current
state value (the actor reference is not serialized). -/
def serializeChatState (c : ChatContext) (currentState : JValue) : JValue :=
  .jobj (serializeChatStateFields c currentState)

/-- `deserializeChatState`: `ChatContextSchema.parse` (throwing on
failure), with `webSocketRef` reset to undefined. -/
def deserializeChatState (savedState : JValue) : Except String ChatContext :=
  match chatContextSchemaParse savedState with
  | some parsedState => .ok { parsedState with webSocketRef := none }
  | none => .error "ZodError: invalid chat state"

/-! Test and product state restoration (testMachine.ts and the
productMachine), to the depth the import flow exercises them: the restored
values are only passed as input to freshly spawned actors, which the app
machine model tracks as opaque references, so the deserializers are
modelled as validators with exactly the success/throw behaviour of the
source. -/

/-- JavaScript truthiness of a possibly absent value. -/
def jsTruthy : Option JValue → Bool
  | none => false
  | some .jnull => false
  | some (.jbool b) => b
  | some (.jnum q) => decide (q ≠ 0)
  | some (.jstr s) => decide (s ≠ "")
  | some (.jdate _) => true
  | some (.jarr _) => true
  | some (.jobj _) => true

/-- `AccuracyTestResultSchema` as a validator. -/
def accuracyResultValid (v : JValue) : Option Unit :=
  match v with
  | .jobj o => do
      let _ ← reqField responseMessageSchemaParse o "response"
      let _ ← reqField parseNum o "productAccuracy"
      pure ()
  | _ => none

/-- `ConsistencyTestResultSchema` as a validator. -/
def consistencyResultValid (v : JValue) : Option Unit :=
  match v with
  | .jobj o => do
      let _ ← reqField responseMessageSchemaParse o "mainPromptResponse"
      let _ ← reqField (parseArr responseMessageSchemaParse) o "variationResponses"
      let _ ← reqField parseNum o "productConsistency"
      let _ ← reqField parseNum o "orderConsistency"
      pure ()
  | _ => none

/-- `FeatureInferenceTestResultSchema` as a validator. -/
def featureInferenceResultValid (v : JValue) : Option Unit :=
  match v with
  | .jobj o => do
      let _ ← reqField responseMessageSchemaParse o "response"
      let _ ← reqField parseNum o "filterAccuracy"
      let _ ← reqField parseRecord o "extractedFilters"
      let _ ← reqField parseRecord o "expectedFilters"
      pure ()
  | _ => none

/-- `ContextRetentionTestResultSchema` as a validator. -/
def contextRetentionResultValid (v : JValue) : Option Unit :=
  match v with
  | .jobj o => do
      let _ ← reqField (parseArr responseMessageSchemaParse) o "conversation"
      let _ ← reqField parseNum o "contextAccuracy"
      let _ ← reqField (parseArr parseRecord) o "filterProgression"
      pure ()
  | _ => none

/-- `RobustnessTestResultSchema` as a validator. -/
def robustnessResultValid (v : JValue) : Option Unit :=
  match v with
  | .jobj o => do
      let _ ← reqField responseMessageSchemaParse o "response"
      let _ ← reqField parseNum o "filterAccuracy"
      let _ ← reqField parseNum o "noiseFiltering"
      let _ ← reqField parseRecord o "extractedFilters"
      pure ()
  | _ => none

/-- `ConversationalFlowTestResultSchema` as a validator. -/
def conversationalFlowResultValid (v : JValue) : Option Unit :=
  match v with
  | .jobj o => do
      let _ ← reqField (parseArr responseMessageSchemaParse) o "conversation"
      let _ ← reqField parseNum o "flowCoherence"
      let _ ← reqField parseNum o "topicTransitionAccuracy"
      pure ()
  | _ => none

/-- `DefensibilityTestResultSchema` as a validator. -/
def defensibilityResultValid (v : JValue) : Option Unit :=
  match v with
  | .jobj o => do
      let _ ← reqField (parseArr responseMessageSchemaParse) o "conversation"
      let _ ← reqField parseNum o "boundaryMaintenance"
      let _ ← reqField parseBool o "appropriateResponse"
      pure ()
  | _ => none

/-- The result schema selected by the testType switch of
`deserializeTestRunnerState`; none is the default branch's throw. -/
def testResultsValidator (testType : String) : Option (JValue → Option Unit) :=
  if testType = "accuracy" then some accuracyResultValid
  else if testType = "consistency" then some consistencyResultValid
  else if testType = "feature_inference" then some featureInferenceResultValid
  else if testType = "context_retention" then some contextRetentionResultValid
  else if testType = "robustness" then some robustnessResultValid
  else if testType = "conversational_flow" then some conversationalFlowResultValid
  else if testType = "defensibility" then some defensibilityResultValid
  else none

/-- `deserializeTestRunnerState`: building baseState only reads properties
(throwing when savedState is null or undefined); a truthy `testResults` is
parsed with the testType's result schema array, otherwise it defaults to
the empty list. -/
def deserializeTestRunnerState (savedState : Option JValue) (testType : String) :
    Except String Unit :=
  match savedState, testResultsValidator testType with
  | none, _ => .error "TypeError: savedState is undefined"
  | some .jnull, _ => .error "TypeError: savedState is null"
  | some _, none => .error "Unknown test type"
  | some sv, some valid =>
      if jsTruthy (sv.getF "testResults") then
        match sv.getF "testResults" with
        | some (.jarr results) =>
            if (results.mapM valid).isSome then .ok ()
            else .error "ZodError: invalid test results"
        | _ => .error "ZodError: testResults is not an array"
      else .ok ()

/-- One entry of `savedState.tests` in `deserializeTestState`: the switch
on `test.testType` throws on an unknown type, then the runner state is
restored for the spawned runner actor. -/
def validateSavedTest (t : JValue) : Except String Unit :=
  match t.getF "testType" with
  | some (.jstr s) =>
      if (testResultsValidator s).isSome then
        deserializeTestRunnerState (t.getF "testRunnerState") s
      else .error "Unknown test type"
  | _ => .error "Unknown test type"

/-- `deserializeTestState`: maps over `savedState.tests` (a thrown
TypeError when that is not an array), restoring one runner per test. -/
def deserializeTestState (savedState : Option JValue) : Except String Unit :=
  match savedState with
  | none => .error "TypeError: savedState is undefined"
  | some sv =>
      match sv.getF "tests" with
      | some (.jarr tests) => tests.forM validateSavedTest
      | _ => .error "TypeError: savedState.tests has no map method"

/-- `ProductMachineContextSchema` as a validator. -/
def productMachineContextValid (v : JValue) : Option Unit :=
  match v with
  | .jobj o => do
      let _ ← optField productSchemaParse o "product"
      let _ ← reqField (parseArr productSchemaParse) o "products"
      let _ ← reqField parseNum o "currentPage"
      let _ ← reqField parseNum o "totalProducts"
      let _ ← optField (fun fv =>
        match fv with
        | .jobj fs => (fs.mapM (fun kv => parseStr kv.2)).map (fun _ => ())
        | _ => none) o "filter"
      pure ()
  | _ => none

/-- `deserializeProductState`: `ProductMachineContextSchema.parse`
(throwing on failure; the selected product is reset afterwards). -/
def deserializeProductState (savedState : Option JValue) : Except String Unit :=
  match savedState with
  | none => .error "ZodError: savedState is undefined"
  | some sv =>
      match productMachineContextValid sv with
      | some _ => .ok ()
      | none => .error "ZodError: invalid product state"

/-! The appMachine (src/unnamed/part_008): settings update and state
import. -/

/-- `APP_STATE_VERSION`. -/
def APP_STATE_VERSION : String := "1.1"

/-- The appMachine context: the three child actors are tracked as opaque
references; the three settings hold whatever JavaScript value was assigned
(the import path spreads `savedState.appState` without validation, so a
field can be absent). -/
structure AppContext where
  chatRef : Nat
  testRef : Nat
  prodRef : Nat
  model : Option JValue
  architecture : Option JValue
  historyManagement : Option JValue

/-- Strict equality of `savedState.version` with the APP_STATE_VERSION
string: only that very string matches. -/
def versionMatches : Option JValue → Bool
  | some (.jstr s) => decide (s = APP_STATE_VERSION)
  | _ => false

/-- `deserializeAppState`: throws unless `savedState.version` equals
APP_STATE_VERSION, then builds the new context object: the
`savedState.appState` fields are spread in unvalidated, and the three child
machines are spawned from their restored states in order (chat, test,
product), each restorer throwing on invalid data.  Spawned actors are
modelled as fresh references numbered from `spawnBase`. -/
def deserializeAppState (spawnBase : Nat) (savedState : JValue) :
    Except String AppContext :=
  if versionMatches (savedState.getF "version") then do
    let appState := savedState.getF "appState"
    let _ ←
      match savedState.getF "chatState" with
      | none => Except.error "ZodError: chatState is undefined"
      | some v => (deserializeChatState v).map (fun _ => ())
    let _ ← deserializeTestState (savedState.getF "testState")
    let _ ← deserializeProductState (savedState.getF "productState")
    pure { chatRef := spawnBase, testRef := spawnBase + 1, prodRef := spawnBase + 2,
           model := appState.bind (fun a => a.getF "model"),
           architecture := appState.bind (fun a => a.getF "architecture"),
           historyManagement := appState.bind (fun a => a.getF "historyManagement") }
  else
    .error "Unsupported state version"

/-- The states of the import flow that the appMachine can settle in after a
submitted import: the form, the history pseudo-state of `open` on success,
and a halted actor when an action of the onDone transition throws. -/
inductive ImportState where
  | displayingImportStateForm | importingState | openHistory | halted
deriving DecidableEq, Repr

/-- The outcome of submitting the import form from
`importingState.displayingImportStateForm`: the `importState` actor is
invoked on the file (`JSON.parse` of its text, passed in as `jsparse`); a
rejected promise takes the invoke's onError back to the form with an error
notification; a resolved promise runs the onDone actions, whose assign
applies `deserializeAppState` — a throw there (for example the version
check) halts the machine with the context unchanged and no notification,
and otherwise the context is replaced and the success notification is
emitted on the way to the history state. -/
def submitImportStateForm (jsparse : String → Option JValue) (spawnBase : Nat)
    (ctx : AppContext) (file : String) :
    ImportState × AppContext × List Notification :=
  match jsparse file with
  | none => (.displayingImportStateForm, ctx, [.error "Failed to import state"])
  | some v =>
      match deserializeAppState spawnBase v with
      | .ok ctx1 => (.openHistory, ctx1, [.success "State imported successfully"])
      | .error _ => (.halted, ctx, [])

/-- The payload of an `app.updateState` message. -/
structure UpdateData where
  model : Option JValue
  architecture : Option JValue
  historyManagement : Option JValue

/-- Handling of `user.submitUpdateSettingForm` in
`updatingSettings.displayingUpdateSettingForm`: the assign stores the three
submitted values (runtime strings), then the second action reads them back
from the context and sends the same `app.updateState` payload to the chat
actor and to the test actor; the machine moves to the history state. -/
def submitUpdateSettingForm (ctx : AppContext) (model : Model)
    (architecture : Architecture) (historyManagement : HistoryManagement) :
    AppContext × List (Nat × UpdateData) :=
  let ctx1 := { ctx with
    model := some (.jstr model.toStr),
    architecture := some (.jstr architecture.toStr),
    historyManagement := some (.jstr historyManagement.toStr) }
  let updateData : UpdateData :=
    { model := ctx1.model, architecture := ctx1.architecture,
      historyManagement := ctx1.historyManagement }
  (ctx1, [(ctx1.chatRef, updateData), (ctx1.testRef, updateData)])

/-! Specification-side description of the normalization performed by
`responseMessageFromJson`, written from the spec claim's wording, to be
compared with the implementation above. -/

/-- The normalization described by the specification: all snake_case keys
become camelCase; a string-valued `message` is JSON-parsed (an invalid
string is an error) and the message value is deep-camelCased; inside the
message object, `response` is renamed to `message` exactly when `message`
is undefined; a top-level `id` becomes `messageId` exactly when `messageId`
is absent; a missing `isUserMessage` defaults to false. -/
def responseNormalizeSpec (jsparse : String → Option JValue)
    (fields : List (String × JValue)) : Except String (List (String × JValue)) := do
  let camel := objOfEntries (fields.map (fun e => (snakeToCamelKey e.1, e.2)))
  let withMessage ←
    match objGet camel "message" with
    | some (.jstr s) =>
        match jsparse s with
        | some mv => Except.ok (objSet camel "message" (deepCamelCase mv))
        | none => Except.error "message is not valid JSON"
    | some mv => Except.ok (objSet camel "message" (deepCamelCase mv))
    | none => Except.ok camel
  let renamed :=
    match objGet withMessage "message" with
    | some (.jobj mf) =>
        match objGet mf "message", objGet mf "response" with
        | none, some rv =>
            objSet withMessage "message" (.jobj (objDelete (objSet mf "message" rv) "response"))
        | _, _ => withMessage
    | _ => withMessage
  let withId :=
    if objHas renamed "messageId" then renamed
    else
      match objGet renamed "id" with
      | some idv => objDelete (objSet renamed "messageId" idv) "id"
      | none => renamed
  let withUser :=
    if objHas withId "isUserMessage" then withId
    else objSet withId "isUserMessage" (.jbool false)
  pure withUser

/-! Concrete fixtures used to evaluate the definitions at specific
inputs. -/

/-- A product whose only distinguishing attribute is its name. -/
def mkTestProduct (name : String) : Product :=
  { id := none, productId := "pid", duplicateIds := none, name, manufacturer := "m",
    formFactor := "f", evaluationOrCommercialization := none,
    processorArchitecture := none, processorCoreCount := none,
    processorManufacturer := none, processorTdp := none, memory := none,
    onboardStorage := none, inputVoltage := none, ioCount := none, wireless := none,
    operatingSystemBsp := none, operatingTemperatureMax := none,
    operatingTemperatureMin := none, certifications := none, price := none,
    stockAvailability := none }

/-- An expected product whose only attribute is its name. -/
def mkTestExpectedProduct (name : String) : ExpectedProduct :=
  { id := none, productId := none, duplicateIds := none, name, manufacturer := none,
    formFactor := none, evaluationOrCommercialization := none,
    processorArchitecture := none, processorCoreCount := none,
    processorManufacturer := none, processorTdp := none, memory := none,
    onboardStorage := none, inputVoltage := none, ioCount := none, wireless := none,
    operatingSystemBsp := none, operatingTemperatureMax := none,
    operatingTemperatureMin := none, certifications := none, price := none,
    stockAvailability := none }

/-- A response whose content carries a given product list. -/
def mkTestResponse (messageId : String) (products : Option (List Product)) :
    ResponseMessage :=
  { messageId, sessionId := "sess",
    message := { type := "product", message := "here", products, reasoning := none,
                 followUpQuestion := none, metadata := none },
    isComplete := true, model := .gpt4o, architectureChoice := .dynamicAgent,
    historyManagementChoice := .keepNone, timestamp := .ofMs 0 }

/-- An accuracy test case with one expected product name. -/
def mkTestCase (messageId expectedName : String) : TestCase :=
  { messageId, prompt := "find it", testType := .accuracy, description := "d",
    products := some [mkTestExpectedProduct expectedName], variations := none,
    conversation := none, expected_filters := none, category := none,
    metadata := none, tags := none }

/-- A request fixture for the webSocketMachine sendMessage action. -/
def mkTestRequestData : RequestData :=
  { type := "textMessage", sessionId := "stale", messageId := "m1",
    message := "hello", timestamp := none, model := .gpt4o,
    architectureChoice := .dynamicAgent, historyManagementChoice := .keepLast5 }

/-- The accuracy runner context for a fresh run over the given test cases. -/
def mkAccContext (testCases : List TestCase) : AccuracyContext :=
  accInitialContext "t" "sess" testCases .gpt4o .dynamicAgent .keepLast5

/-- The event trace of an accuracy run in which the machine is started,
the socket connects, and one reply to the first request arrives. -/
def accTraceOneReply : List AccEvent :=
  [.userStartTest, .webSocketConnected,
   .webSocketMessageReceived (mkTestResponse "r1" (some []))]

/-- A JSON.parse model for the import fixtures: one file parses to a state
with an unsupported version, one parses to a fully valid state, and
everything else is invalid JSON. -/
def importJsparse (s : String) : Option JValue :=
  if s = "oldVersionFile" then
    some (.jobj [("version", .jstr "1.0")])
  else if s = "goodFile" then
    some (.jobj
      [("version", .jstr "1.1"),
       ("appState", .jobj
         [("model", .jstr "gpt-4o"), ("architecture", .jstr "dynamic-agent"),
          ("historyManagement", .jstr "keep-last-5")]),
       ("chatState", .jobj
         [("sessionId", .jstr "sess"), ("chatHistory", .jarr []),
          ("model", .jstr "gpt-4o"), ("architecture", .jstr "dynamic-agent"),
          ("historyManagement", .jstr "keep-last-5"),
          ("currentState", .jstr "idle")]),
       ("testState", .jobj [("tests", .jarr [])]),
       ("productState", .jobj
         [("products", .jarr []), ("currentPage", .jnum 1),
          ("totalProducts", .jnum 0)])])
  else none

/-- An app context fixture for the import and settings transitions. -/
def mkAppContext : AppContext :=
  { chatRef := 0, testRef := 1, prodRef := 2, model := some (.jstr "gpt-4o"),
    architecture := some (.jstr "dynamic-agent"),
    historyManagement := some (.jstr "keep-last-5") }

/-- The four attributes `ProductSchema` requires, with snake_case keys as
they appear in a raw product JSON document. -/
def productRequiredSnakeFields : List (String × JValue) :=
  [("product_id", .jstr "p"), ("name", .jstr "n"), ("manufacturer", .jstr "m"),
   ("form_factor", .jstr "f")]

/-- One well-typed value for every optional attribute of `ProductSchema`,
with snake_case keys; a subset of these entries is an arbitrary way of
omitting optional attributes from a product JSON document. -/
def productOptionalSnakePool : List (String × JValue) :=
  [("id", .jstr "x1"), ("duplicate_ids", .jarr [.jstr "d"]),
   ("evaluation_or_commercialization", .jstr "e"),
   ("processor_architecture", .jstr "pa"), ("processor_core_count", .jstr "pc"),
   ("processor_manufacturer", .jstr "pm"), ("processor_tdp", .jstr "pt"),
   ("memory", .jstr "me"), ("onboard_storage", .jstr "os"),
   ("input_voltage", .jstr "iv"), ("io_count", .jarr [.jstr "io1"]),
   ("wireless", .jarr [.jstr "w"]), ("operating_system_bsp", .jarr [.jstr "ob"]),
   ("operating_temperature_max", .jstr "tmax"),
   ("operating_temperature_min", .jstr "tmin"),
   ("certifications", .jarr [.jstr "c"]), ("price", .jstr "pr"),
   ("stock_availability", .jstr "sa")]

/-! Theorems. -/

/-- Helper: assigning a key absent from an object appends it. -/
theorem objSet_eq_append (o : List (String × JValue)) (k : String) (v : JValue)
    (h : objGet o k = none) : objSet o k v = o ++ [(k, v)] := by
  induction o with
  | nil => rfl
  | cons e rest ih =>
      obtain ⟨k1, v1⟩ := e
      by_cases hk : k1 = k
      · simp [objGet, hk] at h
      · simp only [objGet, hk, if_neg hk] at h
        simp [objSet, hk, ih h]

/-- Helper: a key is missing from an object exactly when no entry carries
it. -/
theorem objGet_eq_none_iff (o : List (String × JValue)) (k : String) :
    objGet o k = none ↔ ∀ e ∈ o, e.1 ≠ k := by
  induction o with
  | nil => simp [objGet]
  | cons e rest ih =>
      obtain ⟨k1, v1⟩ := e
      by_cases hk : k1 = k
      · subst hk
        simp [objGet, ih]
      · simp [objGet, hk, ih]

/-- Helper: lookup distributes over append. -/
theorem objGet_append (xs ys : List (String × JValue)) (k : String) :
    objGet (xs ++ ys) k =
      match objGet xs k with
      | some v => some v
      | none => objGet ys k := by
  induction xs with
  | nil => simp [objGet]
  | cons e rest ih =>
      obtain ⟨k1, v1⟩ := e
      by_cases hk : k1 = k
      · simp [objGet, hk]
      · simp [objGet, hk, ih]

/-- Helper: rebuilding an object whose keys are pairwise distinct returns
it unchanged. -/
theorem objOfEntries_eq_self (es : List (String × JValue))
    (h : (es.map Prod.fst).Nodup) : objOfEntries es = es := by
  suffices hgen : ∀ acc : List (String × JValue),
      (∀ e ∈ es, objGet acc e.1 = none) →
      es.foldl (fun acc e => objSet acc e.1 e.2) acc = acc ++ es by
    simpa [objOfEntries] using hgen [] (by intro e _; rfl)
  induction es with
  | nil => intro acc _; simp
  | cons e rest ih =>
      intro acc hacc
      obtain ⟨k1, v1⟩ := e
      rw [List.map_cons] at h
      obtain ⟨hk1notin, hrestnodup⟩ := List.nodup_cons.1 h
      have hk1 : objGet acc k1 = none := hacc (k1, v1) (by simp)
      have hstep : objSet acc k1 v1 = acc ++ [(k1, v1)] := objSet_eq_append acc k1 v1 hk1
      have hrest : ∀ e ∈ rest, objGet (acc ++ [(k1, v1)]) e.1 = none := by
        intro e he
        rw [objGet_append]
        have hne : k1 ≠ e.1 := by
          intro hcontra
          apply hk1notin
          rw [hcontra]
          exact List.mem_map.2 ⟨e, he, rfl⟩
        have hnone : objGet acc e.1 = none := hacc e (by simp [he])
        simp [hnone, objGet, hne]
      calc ((k1, v1) :: rest).foldl (fun acc e => objSet acc e.1 e.2) acc
          = rest.foldl (fun acc e => objSet acc e.1 e.2) (objSet acc k1 v1) := rfl
        _ = rest.foldl (fun acc e => objSet acc e.1 e.2) (acc ++ [(k1, v1)]) := by rw [hstep]
        _ = (acc ++ [(k1, v1)]) ++ rest := ih hrestnodup (acc ++ [(k1, v1)]) hrest
        _ = acc ++ (k1, v1) :: rest := by simp

/-- Helper: looking a key up in a sublist of an object with pairwise
distinct keys either misses or agrees with the full object. -/
theorem objGet_of_sublist {l m : List (String × JValue)} (h : l.Sublist m)
    (hm : (m.map Prod.fst).Nodup) (k : String) :
    objGet l k = none ∨ objGet l k = objGet m k := by
  induction h with
  | slnil => exact Or.inl rfl
  | @cons l1 m1 e hsub ih =>
      obtain ⟨k1, v1⟩ := e
      rw [List.map_cons] at hm
      obtain ⟨hk1notin, hm1⟩ := List.nodup_cons.1 hm
      by_cases hk : k1 = k
      · subst hk
        have hnone : objGet m1 k1 = none := by
          rw [objGet_eq_none_iff]
          intro e he hcontra
          apply hk1notin
          rw [← hcontra]
          exact List.mem_map.2 ⟨e, he, rfl⟩
        rcases ih hm1 with h1 | h1
        · exact Or.inl h1
        · exact Or.inl (h1.trans hnone)
      · rcases ih hm1 with h1 | h1
        · exact Or.inl h1
        · refine Or.inr ?_
          rw [h1]
          simp [objGet, hk]
  | @cons₂ l1 m1 e hsub ih =>
      obtain ⟨k1, v1⟩ := e
      rw [List.map_cons] at hm
      obtain ⟨hk1notin, hm1⟩ := List.nodup_cons.1 hm
      by_cases hk : k1 = k
      · exact Or.inr (by simp [objGet, hk])
      · rcases ih hm1 with h1 | h1
        · refine Or.inl ?_
          simp only [objGet, if_neg hk]
          exact h1
        · refine Or.inr ?_
          simp only [objGet, if_neg hk]
          exact h1

/-- Claim C1: the claim states that the webSocketMachine keeps attempting to
reconnect while reconnectionAttempts is below MAX_RECONNECTION_ATTEMPTS and
only then gives up with a failure notification and returns to idle.  The
code has the two always-branches of the `reconnecting` state swapped: in the
reachable run below (idle, connect, connected, then a drop) the counter is 1,
well below the bound of 5, yet the machine emits "Failed to reconnect after
multiple attempts", returns to idle, and initiates no connection attempt. -/
theorem c1_reconnect_gives_up_below_bound :
    webSocketStep .idle webSocketInitialContext (.parentConnect "s") =
      .ok { state := .connecting,
            context := { socket := none, sessionId := some "s", reconnectionAttempts := 0 },
            notifications := [], parentMessages := [], sent := [],
            connectionAttempts := 1 } ∧
    webSocketStep .connecting
        { socket := none, sessionId := some "s", reconnectionAttempts := 0 }
        .connectorDone =
      .ok { state := .connected,
            context := { socket := some (), sessionId := some "s", reconnectionAttempts := 0 },
            notifications := [.success "Connected to the server"],
            parentMessages := [.connectedMsg], sent := [], connectionAttempts := 0 } ∧
    webSocketStep .connected
        { socket := some (), sessionId := some "s", reconnectionAttempts := 0 }
        .listenerDisconnected =
      .ok { state := .idle,
            context := { socket := some (), sessionId := some "s", reconnectionAttempts := 1 },
            notifications := [.error "Failed to reconnect after multiple attempts"],
            parentMessages := [], sent := [], connectionAttempts := 0 } ∧
    1 < MAX_RECONNECTION_ATTEMPTS :=
  ⟨rfl, rfl, rfl, by decide⟩

/-- Claim C2: the claim states that a run of the accuracyTestRunnerMachine
over n test cases that reaches `disconnecting` holds exactly n results and
progress 100.  Evaluating the machine shows otherwise: with two test cases
the run disconnects after a single reply with one result (the second test
case is never exercised) because `testIsComplete` compares the incremented
index against length - 1; with one test case the run ends with progress 200
because `increaseProgress` runs after `increaseCurrentTestIndex`. -/
theorem c2_runner_offbyone_eval :
    (accRun "now" (.idle, mkAccContext [mkTestCase "m1" "a", mkTestCase "m2" "b"])
        accTraceOneReply).map
      (fun r => (r.1, r.2.testResults.length)) = .ok (.disconnecting, 1) ∧
    (accRun "now" (.idle, mkAccContext [mkTestCase "m1" "a"]) accTraceOneReply).map
      (fun r => (r.1, r.2.testResults.length)) = .ok (.disconnecting, 1) ∧
    (accRun "now" (.idle, mkAccContext [mkTestCase "m1" "a"]) accTraceOneReply).map
      (fun r => r.2.progress) = .ok 200 := by
  refine ⟨rfl, rfl, ?_⟩
  norm_num [accRun, accStep, accUpdateTestResults, accResolveEvaluating, accSendNextMessage,
    accTestIsComplete, accNoEffects, mkAccContext, accInitialContext, mkTestCase,
    mkTestResponse, calculateProductAccuracy, isTestPassed, mkTestExpectedProduct,
    accTraceOneReply, Except.map, Except.bind, bind, pure, Except.pure]

/-- Helper: with pairwise distinct lowercased actual names, the number of
actual products matching an expected name is at most the number of expected
products (each matched product consumes a distinct name of the expected
set). -/
theorem matchedProducts_length_le (actual : List Product) (l : List ExpectedProduct)
    (h : (actual.map (fun p => p.name.toLower)).Nodup) :
    (actual.filter (fun p =>
      ((l.map (fun e => e.name.toLower)).dedup).contains p.name.toLower)).length ≤
      l.length := by
  classical
  set f : Product → String := fun p => p.name.toLower with hf
  set E := l.map (fun e => e.name.toLower) with hE
  set M := actual.filter (fun p => E.dedup.contains (f p)) with hM
  have hsub : M.Sublist actual := List.filter_sublist actual
  have hMnodup : (M.map f).Nodup := h.sublist (hsub.map f)
  have hmem : ∀ x ∈ M.map f, x ∈ E := by
    intro x hx
    obtain ⟨p, hp, rfl⟩ := List.mem_map.1 hx
    have hc : E.dedup.contains (f p) = true := (List.mem_filter.1 hp).2
    have : f p ∈ E.dedup := by simpa using hc
    simpa [List.mem_dedup] using this
  have h1 : (M.map f).toFinset.card = (M.map f).length :=
    List.toFinset_card_of_nodup hMnodup
  have h2 : (M.map f).toFinset ⊆ E.toFinset := by
    intro x hx
    rw [List.mem_toFinset] at hx ⊢
    exact hmem x hx
  have h3 : E.toFinset.card ≤ E.length := E.toFinset_card_le
  have h4 : M.length = (M.map f).length := (List.length_map M f).symm
  have h5 : E.length = l.length := List.length_map l _
  have h6 : (M.map f).toFinset.card ≤ E.toFinset.card := Finset.card_le_card h2
  omega

/-- Claim C9 (amended): calculateProductAccuracy returns exactly 1 when
expectedProducts is undefined; for every non-empty expected list it returns
a nonnegative rational, which is at most 1 when the actual products'
lowercased names are pairwise distinct.  (As claimed originally the upper
bound fails: duplicated actual names can push the ratio above 1, see the
counterexample.  An EMPTY expected list — outside the claim's
quantification — yields NaN in the source, `none` in the model.) -/
theorem c9_product_accuracy_bounds (actualProducts : List Product)
    (expectedProducts : Option (List ExpectedProduct)) :
    (expectedProducts = none →
      calculateProductAccuracy actualProducts expectedProducts = some 1) ∧
    (∀ l, expectedProducts = some l → l ≠ [] →
      ∃ q, calculateProductAccuracy actualProducts expectedProducts = some q ∧
        0 ≤ q ∧
        ((actualProducts.map (fun p => p.name.toLower)).Nodup → q ≤ 1)) := by
  refine ⟨?_, ?_⟩
  · rintro rfl; rfl
  · rintro l rfl hne
    have hlen : l.length ≠ 0 := by simpa [List.length_eq_zero] using hne
    have hpos : (0 : Rat) < (l.length : Rat) := by
      exact_mod_cast Nat.pos_of_ne_zero hlen
    simp only [calculateProductAccuracy, if_neg hlen]
    refine ⟨_, rfl, div_nonneg (Nat.cast_nonneg _) (Nat.cast_nonneg _), fun hnodup => ?_⟩
    rw [div_le_one hpos]
    exact_mod_cast matchedProducts_length_le actualProducts l hnodup

/-- Claim C9, witness: the bounds theorem evaluated on one actual product
and one (non-matching) expected product. -/
theorem c9_witness :
    ∃ q, calculateProductAccuracy [mkTestProduct "a"]
        (some [mkTestExpectedProduct "b"]) = some q ∧ 0 ≤ q ∧ q ≤ 1 := by
  obtain ⟨q, hq, h0, h1⟩ :=
    (c9_product_accuracy_bounds [mkTestProduct "a"]
        (some [mkTestExpectedProduct "b"])).2 [mkTestExpectedProduct "b"] rfl (by simp)
  exact ⟨q, hq, h0, h1 (by simp)⟩

/-- Claim C9, counterexample to the claim as stated: two actual products
with the same expected name give an accuracy of 2, outside the interval
[0, 1] the claim asserts. -/
theorem c9_counterexample :
    calculateProductAccuracy [mkTestProduct "a", mkTestProduct "a"]
      (some [mkTestExpectedProduct "a"]) = some 2 := by
  simp [calculateProductAccuracy, mkTestProduct, mkTestExpectedProduct]

/-- Helper: an `.optional().nullable()` field parses whenever the present
value (if any, and not null) is accepted by the inner parser. -/
theorem optNullField_isSome {α : Type} (pko : JValue → Option α)
    (o : List (String × JValue)) (ko : String)
    (h : ∀ v, objGet o ko = some v → v ≠ .jnull → (pko v).isSome) :
    (optNullField pko o ko).isSome := by
  unfold optNullField
  cases hv : objGet o ko with
  | none => rfl
  | some v =>
      cases v with
      | jnull => rfl
      | jbool b => simpa using h _ hv (by intro hc; cases hc)
      | jnum q => simpa using h _ hv (by intro hc; cases hc)
      | jstr t => simpa using h _ hv (by intro hc; cases hc)
      | jdate d => simpa using h _ hv (by intro hc; cases hc)
      | jarr xs => simpa using h _ hv (by intro hc; cases hc)
      | jobj fs => simpa using h _ hv (by intro hc; cases hc)

/-- Helper: after key transformation, an optional product attribute drawn
from the pool (or omitted) always parses. -/
theorem c8_opt_ok {α : Type} (pko : JValue → Option α) (l : List (String × JValue))
    (hl : l.Sublist productOptionalSnakePool) (ko : String)
    (hfront : objGet (productRequiredSnakeFields.map
      (fun e => (snakeToCamelKey e.1, e.2))) ko = none)
    (hpool : ∀ v, objGet (productOptionalSnakePool.map
      (fun e => (snakeToCamelKey e.1, e.2))) ko = some v →
      v ≠ .jnull → (pko v).isSome) :
    (optNullField pko
      (productRequiredSnakeFields.map (fun e => (snakeToCamelKey e.1, e.2)) ++
        l.map (fun e => (snakeToCamelKey e.1, e.2))) ko).isSome := by
  apply optNullField_isSome
  intro v hv hnn
  simp only [objGet_append, hfront] at hv
  rcases objGet_of_sublist (hl.map (fun e => (snakeToCamelKey e.1, e.2)))
      (by decide) ko with h1 | h1
  · rw [h1] at hv; cases hv
  · rw [h1] at hv
    exact hpool v hv hnn

/-- Helper: `ProductSchema.parse` succeeds on the camelCased object holding
the four required attributes and any subset of the optional attribute
pool. -/
theorem c8_parse_subset (l : List (String × JValue))
    (hl : l.Sublist productOptionalSnakePool) :
    (productSchemaParse (.jobj
      (productRequiredSnakeFields.map (fun e => (snakeToCamelKey e.1, e.2)) ++
        l.map (fun e => (snakeToCamelKey e.1, e.2))))).isSome := by
  have h_id := c8_opt_ok parseStr l hl "id" rfl (by
    intro v hv hnn
    have h2 : some (JValue.jstr "x1") = some v := by rw [← hv]; rfl
    injection h2 with h3
    subst h3
    rfl)
  have h_duplicateIds := c8_opt_ok (parseArr parseStr) l hl "duplicateIds" rfl (by
    intro v hv hnn
    have h2 : some (JValue.jarr [JValue.jstr "d"]) = some v := by rw [← hv]; rfl
    injection h2 with h3
    subst h3
    rfl)
  have h_evaluationOrCommercialization := c8_opt_ok parseStr l hl "evaluationOrCommercialization" rfl (by
    intro v hv hnn
    have h2 : some (JValue.jstr "e") = some v := by rw [← hv]; rfl
    injection h2 with h3
    subst h3
    rfl)
  have h_processorArchitecture := c8_opt_ok parseStr l hl "processorArchitecture" rfl (by
    intro v hv hnn
    have h2 : some (JValue.jstr "pa") = some v := by rw [← hv]; rfl
    injection h2 with h3
    subst h3
    rfl)
  have h_processorCoreCount := c8_opt_ok parseStr l hl "processorCoreCount" rfl (by
    intro v hv hnn
    have h2 : some (JValue.jstr "pc") = some v := by rw [← hv]; rfl
    injection h2 with h3
    subst h3
    rfl)
  have h_processorManufacturer := c8_opt_ok parseStr l hl "processorManufacturer" rfl (by
    intro v hv hnn
    have h2 : some (JValue.jstr "pm") = some v := by rw [← hv]; rfl
    injection h2 with h3
    subst h3
    rfl)
  have h_processorTdp := c8_opt_ok parseStr l hl "processorTdp" rfl (by
    intro v hv hnn
    have h2 : some (JValue.jstr "pt") = some v := by rw [← hv]; rfl
    injection h2 with h3
    subst h3
    rfl)
  have h_memory := c8_opt_ok parseStr l hl "memory" rfl (by
    intro v hv hnn
    have h2 : some (JValue.jstr "me") = some v := by rw [← hv]; rfl
    injection h2 with h3
    subst h3
    rfl)
  have h_onboardStorage := c8_opt_ok parseStr l hl "onboardStorage" rfl (by
    intro v hv hnn
    have h2 : some (JValue.jstr "os") = some v := by rw [← hv]; rfl
    injection h2 with h3
    subst h3
    rfl)
  have h_inputVoltage := c8_opt_ok parseStr l hl "inputVoltage" rfl (by
    intro v hv hnn
    have h2 : some (JValue.jstr "iv") = some v := by rw [← hv]; rfl
    injection h2 with h3
    subst h3
    rfl)
  have h_ioCount := c8_opt_ok (parseArr parseStr) l hl "ioCount" rfl (by
    intro v hv hnn
    have h2 : some (JValue.jarr [JValue.jstr "io1"]) = some v := by rw [← hv]; rfl
    injection h2 with h3
    subst h3
    rfl)
  have h_wireless := c8_opt_ok (parseArr parseStr) l hl "wireless" rfl (by
    intro v hv hnn
    have h2 : some (JValue.jarr [JValue.jstr "w"]) = some v := by rw [← hv]; rfl
    injection h2 with h3
    subst h3
    rfl)
  have h_operatingSystemBsp := c8_opt_ok (parseArr parseStr) l hl "operatingSystemBsp" rfl (by
    intro v hv hnn
    have h2 : some (JValue.jarr [JValue.jstr "ob"]) = some v := by rw [← hv]; rfl
    injection h2 with h3
    subst h3
    rfl)
  have h_operatingTemperatureMax := c8_opt_ok parseStr l hl "operatingTemperatureMax" rfl (by
    intro v hv hnn
    have h2 : some (JValue.jstr "tmax") = some v := by rw [← hv]; rfl
    injection h2 with h3
    subst h3
    rfl)
  have h_operatingTemperatureMin := c8_opt_ok parseStr l hl "operatingTemperatureMin" rfl (by
    intro v hv hnn
    have h2 : some (JValue.jstr "tmin") = some v := by rw [← hv]; rfl
    injection h2 with h3
    subst h3
    rfl)
  have h_certifications := c8_opt_ok (parseArr parseStr) l hl "certifications" rfl (by
    intro v hv hnn
    have h2 : some (JValue.jarr [JValue.jstr "c"]) = some v := by rw [← hv]; rfl
    injection h2 with h3
    subst h3
    rfl)
  have h_price := c8_opt_ok parseStr l hl "price" rfl (by
    intro v hv hnn
    have h2 : some (JValue.jstr "pr") = some v := by rw [← hv]; rfl
    injection h2 with h3
    subst h3
    rfl)
  have h_stockAvailability := c8_opt_ok parseStr l hl "stockAvailability" rfl (by
    intro v hv hnn
    have h2 : some (JValue.jstr "sa") = some v := by rw [← hv]; rfl
    injection h2 with h3
    subst h3
    rfl)
  obtain ⟨v_id, e_id⟩ := Option.isSome_iff_exists.1 h_id
  obtain ⟨v_duplicateIds, e_duplicateIds⟩ := Option.isSome_iff_exists.1 h_duplicateIds
  obtain ⟨v_evaluationOrCommercialization, e_evaluationOrCommercialization⟩ :=
    Option.isSome_iff_exists.1 h_evaluationOrCommercialization
  obtain ⟨v_processorArchitecture, e_processorArchitecture⟩ :=
    Option.isSome_iff_exists.1 h_processorArchitecture
  obtain ⟨v_processorCoreCount, e_processorCoreCount⟩ :=
    Option.isSome_iff_exists.1 h_processorCoreCount
  obtain ⟨v_processorManufacturer, e_processorManufacturer⟩ :=
    Option.isSome_iff_exists.1 h_processorManufacturer
  obtain ⟨v_processorTdp, e_processorTdp⟩ := Option.isSome_iff_exists.1 h_processorTdp
  obtain ⟨v_memory, e_memory⟩ := Option.isSome_iff_exists.1 h_memory
  obtain ⟨v_onboardStorage, e_onboardStorage⟩ := Option.isSome_iff_exists.1 h_onboardStorage
  obtain ⟨v_inputVoltage, e_inputVoltage⟩ := Option.isSome_iff_exists.1 h_inputVoltage
  obtain ⟨v_ioCount, e_ioCount⟩ := Option.isSome_iff_exists.1 h_ioCount
  obtain ⟨v_wireless, e_wireless⟩ := Option.isSome_iff_exists.1 h_wireless
  obtain ⟨v_operatingSystemBsp, e_operatingSystemBsp⟩ :=
    Option.isSome_iff_exists.1 h_operatingSystemBsp
  obtain ⟨v_operatingTemperatureMax, e_operatingTemperatureMax⟩ :=
    Option.isSome_iff_exists.1 h_operatingTemperatureMax
  obtain ⟨v_operatingTemperatureMin, e_operatingTemperatureMin⟩ :=
    Option.isSome_iff_exists.1 h_operatingTemperatureMin
  obtain ⟨v_certifications, e_certifications⟩ := Option.isSome_iff_exists.1 h_certifications
  obtain ⟨v_price, e_price⟩ := Option.isSome_iff_exists.1 h_price
  obtain ⟨v_stockAvailability, e_stockAvailability⟩ :=
    Option.isSome_iff_exists.1 h_stockAvailability
  have hq_productId : objGet
      (productRequiredSnakeFields.map (fun e => (snakeToCamelKey e.1, e.2)) ++
        l.map (fun e => (snakeToCamelKey e.1, e.2))) "productId" = some (JValue.jstr "p") := rfl
  have hq_name : objGet
      (productRequiredSnakeFields.map (fun e => (snakeToCamelKey e.1, e.2)) ++
        l.map (fun e => (snakeToCamelKey e.1, e.2))) "name" = some (JValue.jstr "n") := rfl
  have hq_manufacturer : objGet
      (productRequiredSnakeFields.map (fun e => (snakeToCamelKey e.1, e.2)) ++
        l.map (fun e => (snakeToCamelKey e.1, e.2))) "manufacturer" = some (JValue.jstr "m") := rfl
  have hq_formFactor : objGet
      (productRequiredSnakeFields.map (fun e => (snakeToCamelKey e.1, e.2)) ++
        l.map (fun e => (snakeToCamelKey e.1, e.2))) "formFactor" = some (JValue.jstr "f") := rfl
  have hg0 : (productParseG0
      (productRequiredSnakeFields.map (fun e => (snakeToCamelKey e.1, e.2)) ++
        l.map (fun e => (snakeToCamelKey e.1, e.2)))).isSome := by
    simp [productParseG0, e_id, e_duplicateIds, reqField, hq_productId, hq_name,
      hq_manufacturer, hq_formFactor, parseStr]
  have hg1 : (productParseG1
      (productRequiredSnakeFields.map (fun e => (snakeToCamelKey e.1, e.2)) ++
        l.map (fun e => (snakeToCamelKey e.1, e.2)))).isSome := by
    simp [productParseG1, e_evaluationOrCommercialization, e_processorArchitecture,
      e_processorCoreCount, e_processorManufacturer, e_processorTdp, e_memory]
  have hg2 : (productParseG2
      (productRequiredSnakeFields.map (fun e => (snakeToCamelKey e.1, e.2)) ++
        l.map (fun e => (snakeToCamelKey e.1, e.2)))).isSome := by
    simp [productParseG2, e_onboardStorage, e_inputVoltage, e_ioCount, e_wireless,
      e_operatingSystemBsp, e_operatingTemperatureMax]
  have hg3 : (productParseG3
      (productRequiredSnakeFields.map (fun e => (snakeToCamelKey e.1, e.2)) ++
        l.map (fun e => (snakeToCamelKey e.1, e.2)))).isSome := by
    simp [productParseG3, e_operatingTemperatureMin, e_certifications, e_price,
      e_stockAvailability]
  obtain ⟨g0, eg0⟩ := Option.isSome_iff_exists.1 hg0
  obtain ⟨g1, eg1⟩ := Option.isSome_iff_exists.1 hg1
  obtain ⟨g2, eg2⟩ := Option.isSome_iff_exists.1 hg2
  obtain ⟨g3, eg3⟩ := Option.isSome_iff_exists.1 hg3
  simp [productSchemaParse, eg0, eg1, eg2, eg3]

/-- Claim C8 (amended): productFromJson succeeds on a product JSON object
carrying the four required attributes (productId, name, manufacturer,
formFactor, in snake_case) together with any subset of the optional
attributes — omitting an optional attribute never causes parsing to fail.
(As originally stated the claim fails: the four required attributes cannot
be omitted, see the counterexample.) -/
theorem c8_product_optional_subset (l : List (String × JValue))
    (hl : l.Sublist productOptionalSnakePool) :
    ∃ p, productFromJson (.jobj (productRequiredSnakeFields ++ l)) = .ok p := by
  have hkeys : (((productRequiredSnakeFields ++ l).map
      (fun e => (snakeToCamelKey e.1, e.2))).map Prod.fst).Nodup := by
    rw [List.map_append, List.map_append, List.nodup_append]
    refine ⟨by decide, ?_, ?_⟩
    · exact (show ((productOptionalSnakePool.map
          (fun e => (snakeToCamelKey e.1, e.2))).map Prod.fst).Nodup by decide).sublist
        ((hl.map (fun e => (snakeToCamelKey e.1, e.2))).map Prod.fst)
    · intro a ha hb
      have hsubset := ((hl.map (fun e => (snakeToCamelKey e.1, e.2))).map Prod.fst).subset
      have hdec : ∀ x ∈ (productRequiredSnakeFields.map
          (fun e => (snakeToCamelKey e.1, e.2))).map Prod.fst,
          x ∉ (productOptionalSnakePool.map
            (fun e => (snakeToCamelKey e.1, e.2))).map Prod.fst := by decide
      exact hdec a ha (hsubset hb)
  have htrans : transformKeys snakeToCamelKey (.jobj (productRequiredSnakeFields ++ l)) =
      .jobj (productRequiredSnakeFields.map (fun e => (snakeToCamelKey e.1, e.2)) ++
        l.map (fun e => (snakeToCamelKey e.1, e.2))) := by
    simp only [transformKeys]
    rw [objOfEntries_eq_self _ hkeys, List.map_append]
  obtain ⟨p, hp⟩ := Option.isSome_iff_exists.1 (c8_parse_subset l hl)
  refine ⟨p, ?_⟩
  simp only [productFromJson, htrans, hp]

/-- Claim C8, witness: the amended theorem applied to the subset holding
only the memory attribute. -/
theorem c8_witness :
    (productFromJson (.jobj (productRequiredSnakeFields ++
      [("memory", .jstr "me")]))).toOption.isSome = true := by
  obtain ⟨p, hp⟩ := c8_product_optional_subset [("memory", .jstr "me")]
    (List.singleton_sublist.2 (by simp [productOptionalSnakePool]))
  rw [hp]
  rfl

/-- Claim C8, counterexample to the claim as stated: omitting the `name`
attribute (a JSON object with product_id, manufacturer and form_factor
only) makes productFromJson throw. -/
theorem c8_counterexample :
    productFromJson (.jobj [("product_id", .jstr "p"), ("manufacturer", .jstr "m"),
      ("form_factor", .jstr "f")]) = .error "Invalid product data" := rfl

/-- Claim C7: handling user.submitUpdateSettingForm changes only the model,
architecture and historyManagement fields of the appMachine context — the
three child actor references are untouched — and sends one app.updateState
message carrying exactly the three submitted values to the chat actor and
one to the test actor, and to no other actor. -/
theorem c7_update_settings (ctx : AppContext) (model : Model)
    (architecture : Architecture) (historyManagement : HistoryManagement) :
    (submitUpdateSettingForm ctx model architecture historyManagement).1.chatRef = ctx.chatRef ∧
    (submitUpdateSettingForm ctx model architecture historyManagement).1.testRef = ctx.testRef ∧
    (submitUpdateSettingForm ctx model architecture historyManagement).1.prodRef = ctx.prodRef ∧
    (submitUpdateSettingForm ctx model architecture historyManagement).1.model =
      some (.jstr model.toStr) ∧
    (submitUpdateSettingForm ctx model architecture historyManagement).1.architecture =
      some (.jstr architecture.toStr) ∧
    (submitUpdateSettingForm ctx model architecture historyManagement).1.historyManagement =
      some (.jstr historyManagement.toStr) ∧
    (submitUpdateSettingForm ctx model architecture historyManagement).2 =
      [(ctx.chatRef,
        { model := some (.jstr model.toStr),
          architecture := some (.jstr architecture.toStr),
          historyManagement := some (.jstr historyManagement.toStr) }),
       (ctx.testRef,
        { model := some (.jstr model.toStr),
          architecture := some (.jstr architecture.toStr),
          historyManagement := some (.jstr historyManagement.toStr) })] :=
  ⟨rfl, rfl, rfl, rfl, rfl, rfl, rfl⟩

/-- Helper: ModelSchema accepts the runtime string of every model. -/
theorem parseModel_toStr (m : Model) : parseModel (.jstr m.toStr) = some m := by
  cases m <;> rfl

/-- Helper: ArchitectureSchema accepts the runtime string of every
architecture. -/
theorem parseArchitecture_toStr (a : Architecture) :
    parseArchitecture (.jstr a.toStr) = some a := by
  cases a <;> rfl

/-- Helper: HistoryManagementSchema accepts the runtime string of every
history-management choice. -/
theorem parseHistoryManagement_toStr (h : HistoryManagement) :
    parseHistoryManagement (.jstr h.toStr) = some h := by
  cases h <;> rfl

/-- Helper: `RequestDataSchema.parse` of the object underlying a typed
request is the identity. -/
theorem requestData_roundtrip (d : RequestData) :
    requestDataSchemaParse (encodeRequestData d) = some d := by
  obtain ⟨ty, sid, mid, msg, ts, mo, ar, hi⟩ := d
  cases ts with
  | none =>
      simp [requestDataSchemaParse, encodeRequestData, encReq, encOpt, reqField, optField,
        objGet, parseStr, parseModel_toStr, parseArchitecture_toStr,
        parseHistoryManagement_toStr]
  | some t =>
      simp [requestDataSchemaParse, encodeRequestData, encReq, encOpt, reqField, optField,
        objGet, parseStr, parseModel_toStr, parseArchitecture_toStr,
        parseHistoryManagement_toStr]

/-- Claim C3: when the webSocketMachine holds a stored sessionId, the
sendMessage action succeeds and its outgoing envelope — after
camelCase-to-snake_case key transformation — carries the fields `type`,
`session_id` and `message_id`, with session_id equal to the machine's
stored sessionId (overriding whatever sessionId the event data carried). -/
theorem c3_send_message_envelope (ctx : WebSocketContext) (d : RequestData) (s : String)
    (hs : ctx.sessionId = some s) :
    ∃ flds, sendMessage ctx d = .ok (.jobj flds) ∧
      objGet flds "type" = some (.jstr d.type) ∧
      objGet flds "session_id" = some (.jstr s) ∧
      objGet flds "message_id" = some (.jstr d.messageId) := by
  obtain ⟨ty, sid, mid, msg, ts, mo, ar, hi⟩ := d
  have hsm : sendMessage ctx ⟨ty, sid, mid, msg, ts, mo, ar, hi⟩ =
      match requestDataSchemaParse (encodeRequestData ⟨ty, s, mid, msg, ts, mo, ar, hi⟩) with
      | some m => .ok (requestDataToJson m)
      | none => .error "ZodError: sessionId validation failed" := by
    unfold sendMessage
    rw [hs]
    rfl
  rw [hsm, requestData_roundtrip]
  cases ts with
  | none => exact ⟨_, rfl, rfl, rfl, rfl⟩
  | some t => exact ⟨_, rfl, rfl, rfl, rfl⟩

/-- Claim C3, witness: the envelope theorem evaluated on a concrete
context (stored session "sessA") and a request fixture whose own sessionId
is the stale value "stale". -/
theorem c3_witness :
    ((sendMessage { socket := some (), sessionId := some "sessA", reconnectionAttempts := 0 }
        mkTestRequestData).toOption.map
      (fun j => (j.getF "session_id", j.getF "type", j.getF "message_id"))) =
      some (some (.jstr "sessA"), some (.jstr "textMessage"), some (.jstr "m1")) := by
  obtain ⟨flds, h1, h2, h3, h4⟩ := c3_send_message_envelope
    { socket := some (), sessionId := some "sessA", reconnectionAttempts := 0 }
    mkTestRequestData "sessA" rfl
  rw [h1]
  simp only [Except.toOption, Option.map, JValue.getF]
  rw [h2, h3, h4]
  rfl

/-- Claim C5 (amended): a file whose content is not valid JSON rejects the
importState invocation, so the machine emits an error notification and
returns to displayingImportStateForm with its context unchanged; a file
parsing to a state whose version differs from APP_STATE_VERSION instead
throws inside the onDone assign, halting the machine with no notification
and the context unchanged (the claimed error-notification-and-return
behaviour does not happen for this failure mode); only on success is the
context replaced by the deserialized state, with the success
notification. -/
theorem c5_import_flow (jsparse : String → Option JValue) (spawnBase : Nat)
    (ctx : AppContext) (file : String) :
    (jsparse file = none →
      submitImportStateForm jsparse spawnBase ctx file =
        (.displayingImportStateForm, ctx, [.error "Failed to import state"])) ∧
    (∀ v, jsparse file = some v → versionMatches (v.getF "version") = false →
      submitImportStateForm jsparse spawnBase ctx file = (.halted, ctx, [])) ∧
    (∀ v ctx1, jsparse file = some v → deserializeAppState spawnBase v = .ok ctx1 →
      submitImportStateForm jsparse spawnBase ctx file =
        (.openHistory, ctx1, [.success "State imported successfully"])) := by
  refine ⟨?_, ?_, ?_⟩
  · intro h
    simp [submitImportStateForm, h]
  · intro v hv hver
    have hdes : deserializeAppState spawnBase v = .error "Unsupported state version" := by
      simp [deserializeAppState, hver]
    simp [submitImportStateForm, hv, hdes]
  · intro v ctx1 hv hok
    simp [submitImportStateForm, hv, hok]

/-- Claim C5, witness: the import-flow theorem evaluated on an invalid
JSON file, a version-1.0 file, and a fully valid state file. -/
theorem c5_witness :
    submitImportStateForm importJsparse 10 mkAppContext "nonsense" =
      (.displayingImportStateForm, mkAppContext, [.error "Failed to import state"]) ∧
    submitImportStateForm importJsparse 10 mkAppContext "oldVersionFile" =
      (.halted, mkAppContext, []) ∧
    submitImportStateForm importJsparse 10 mkAppContext "goodFile" =
      (.openHistory,
       { chatRef := 10, testRef := 11, prodRef := 12, model := some (.jstr "gpt-4o"),
         architecture := some (.jstr "dynamic-agent"),
         historyManagement := some (.jstr "keep-last-5") },
       [.success "State imported successfully"]) :=
  ⟨(c5_import_flow importJsparse 10 mkAppContext "nonsense").1 rfl,
   (c5_import_flow importJsparse 10 mkAppContext "oldVersionFile").2.1
     (.jobj [("version", .jstr "1.0")]) rfl rfl,
   (c5_import_flow importJsparse 10 mkAppContext "goodFile").2.2 _ _ rfl rfl⟩

/-- Claim C5, counterexample to the claim as stated: importing a file with
version "1.0" leaves the machine halted with no notification, not in
displayingImportStateForm with an error notification. -/
theorem c5_counterexample :
    submitImportStateForm importJsparse 10 mkAppContext "oldVersionFile" =
      (.halted, mkAppContext, []) ∧
    ImportState.halted ≠ ImportState.displayingImportStateForm :=
  ⟨rfl, by decide⟩

/-! Lookup lemmas for the encoder chunks, and parse-of-encode inverses. -/

@[simp] theorem objGet_nil (k : String) : objGet [] k = none := rfl

@[simp] theorem objGet_encReq_append_self (k : String) (v : JValue)
    (rest : List (String × JValue)) : objGet (encReq k v ++ rest) k = some v := by
  simp [encReq, objGet]

@[simp] theorem objGet_encReq_append_ne (k1 k : String) (v : JValue)
    (rest : List (String × JValue)) (h : ¬ k1 = k) :
    objGet (encReq k1 v ++ rest) k = objGet rest k := by
  simp [encReq, objGet, h]

@[simp] theorem objGet_encOpt_append_self (k : String) (v : Option JValue)
    (rest : List (String × JValue)) (h : objGet rest k = none) :
    objGet (encOpt k v ++ rest) k = v := by
  cases v with
  | none => simpa [encOpt]
  | some j => simp [encOpt, objGet]

@[simp] theorem objGet_encOpt_append_ne (k1 k : String) (v : Option JValue)
    (rest : List (String × JValue)) (h : ¬ k1 = k) :
    objGet (encOpt k1 v ++ rest) k = objGet rest k := by
  cases v with
  | none => simp [encOpt]
  | some j => simp [encOpt, objGet, h]

@[simp] theorem objGet_encOptNull_append_self {α : Type} (enc : α → JValue) (k : String)
    (v : Option (Option α)) (rest : List (String × JValue)) (h : objGet rest k = none) :
    objGet (encOptNull enc k v ++ rest) k =
      v.map (fun w => match w with | none => JValue.jnull | some a => enc a) := by
  rcases v with _ | _ | a
  · simpa [encOptNull]
  · simp [encOptNull, objGet]
  · simp [encOptNull, objGet]

@[simp] theorem objGet_encOptNull_append_ne {α : Type} (enc : α → JValue) (k1 k : String)
    (v : Option (Option α)) (rest : List (String × JValue)) (h : ¬ k1 = k) :
    objGet (encOptNull enc k1 v ++ rest) k = objGet rest k := by
  rcases v with _ | _ | a <;> simp [encOptNull, objGet, h]

@[simp] theorem objGet_encReq_self (k : String) (v : JValue) :
    objGet (encReq k v) k = some v := by
  simp [encReq, objGet]

@[simp] theorem objGet_encReq_ne (k1 k : String) (v : JValue) (h : ¬ k1 = k) :
    objGet (encReq k1 v) k = none := by
  simp [encReq, objGet, h]

@[simp] theorem objGet_encOpt_self (k : String) (v : Option JValue) :
    objGet (encOpt k v) k = v := by
  cases v <;> simp [encOpt, objGet]

@[simp] theorem objGet_encOpt_ne (k1 k : String) (v : Option JValue) (h : ¬ k1 = k) :
    objGet (encOpt k1 v) k = none := by
  cases v <;> simp [encOpt, objGet, h]

@[simp] theorem objGet_encOptNull_self {α : Type} (enc : α → JValue) (k : String)
    (v : Option (Option α)) :
    objGet (encOptNull enc k v) k =
      v.map (fun w => match w with | none => JValue.jnull | some a => enc a) := by
  rcases v with _ | _ | a <;> simp [encOptNull, objGet]

@[simp] theorem objGet_encOptNull_ne {α : Type} (enc : α → JValue) (k1 k : String)
    (v : Option (Option α)) (h : ¬ k1 = k) :
    objGet (encOptNull enc k1 v) k = none := by
  rcases v with _ | _ | a <;> simp [encOptNull, objGet, h]

theorem reqField_of_objGet {α : Type} (parser : JValue → Option α)
    (o : List (String × JValue)) (k : String) (j : JValue) (a : α)
    (h : objGet o k = some j) (hp : parser j = some a) :
    reqField parser o k = some a := by
  unfold reqField
  rw [h]
  exact hp

theorem optField_of_objGet {α : Type} (parser : JValue → Option α) (enc : α → JValue)
    (hinv : ∀ a, parser (enc a) = some a)
    (o : List (String × JValue)) (k : String) (v : Option α)
    (h : objGet o k = v.map enc) :
    optField parser o k = some v := by
  unfold optField
  rw [h]
  cases v with
  | none => rfl
  | some a => simp [hinv]

theorem optNullField_some {α : Type} (parser : JValue → Option α)
    (o : List (String × JValue)) (k : String) (v : JValue)
    (h : objGet o k = some v) (hv : v ≠ JValue.jnull) :
    optNullField parser o k = (parser v).map (fun a => some (some a)) := by
  unfold optNullField
  rw [h]
  cases v with
  | jnull => exact absurd rfl hv
  | jbool b => rfl
  | jnum q => rfl
  | jstr t => rfl
  | jdate d => rfl
  | jarr xs => rfl
  | jobj fs => rfl

theorem optNullField_of_objGet {α : Type} (parser : JValue → Option α) (enc : α → JValue)
    (hinv : ∀ a, parser (enc a) = some a)
    (hnn : ∀ a, enc a ≠ JValue.jnull)
    (o : List (String × JValue)) (k : String) (v : Option (Option α))
    (h : objGet o k = v.map (fun w => match w with | none => JValue.jnull | some a => enc a)) :
    optNullField parser o k = some v := by
  rcases v with _ | _ | a
  · unfold optNullField
    rw [h]
    rfl
  · unfold optNullField
    rw [h]
    rfl
  · rw [optNullField_some parser o k (enc a) h (hnn a), hinv]
    rfl

theorem mapM_parseStr_map (xs : List String) :
    ((xs.map JValue.jstr).mapM parseStr) = some xs := by
  induction xs with
  | nil => rfl
  | cons x rest ih =>
      rw [List.map_cons, List.mapM_cons, ih]
      rfl

theorem parseArr_encStrArr (xs : List String) :
    parseArr parseStr (encStrArr xs) = some xs := by
  show (xs.map JValue.jstr).mapM parseStr = some xs
  exact mapM_parseStr_map xs

theorem productParseG0_enc (p : Product) :
    productParseG0 (encodeProductFields p) = some ⟨p.id, p.productId, p.duplicateIds, p.name, p.manufacturer, p.formFactor⟩ := by
  have h_id : optNullField parseStr (encodeProductFields p) "id" = some p.id :=
    optNullField_of_objGet parseStr JValue.jstr (fun a => rfl)
      (fun a h => JValue.noConfusion h) _ _ _ (by simp [encodeProductFields])
  have h_productId : reqField parseStr (encodeProductFields p) "productId" = some p.productId :=
    reqField_of_objGet parseStr _ _ (JValue.jstr p.productId) p.productId
      (by simp [encodeProductFields]) rfl
  have h_duplicateIds : optNullField (parseArr parseStr) (encodeProductFields p) "duplicateIds" = some p.duplicateIds :=
    optNullField_of_objGet (parseArr parseStr) encStrArr parseArr_encStrArr
      (fun a h => JValue.noConfusion h) _ _ _ (by simp [encodeProductFields])
  have h_name : reqField parseStr (encodeProductFields p) "name" = some p.name :=
    reqField_of_objGet parseStr _ _ (JValue.jstr p.name) p.name
      (by simp [encodeProductFields]) rfl
  have h_manufacturer : reqField parseStr (encodeProductFields p) "manufacturer" = some p.manufacturer :=
    reqField_of_objGet parseStr _ _ (JValue.jstr p.manufacturer) p.manufacturer
      (by simp [encodeProductFields]) rfl
  have h_formFactor : reqField parseStr (encodeProductFields p) "formFactor" = some p.formFactor :=
    reqField_of_objGet parseStr _ _ (JValue.jstr p.formFactor) p.formFactor
      (by simp [encodeProductFields]) rfl
  simp [productParseG0, h_id, h_productId, h_duplicateIds, h_name, h_manufacturer, h_formFactor]

theorem productParseG1_enc (p : Product) :
    productParseG1 (encodeProductFields p) = some ⟨p.evaluationOrCommercialization, p.processorArchitecture, p.processorCoreCount, p.processorManufacturer, p.processorTdp, p.memory⟩ := by
  have h_evaluationOrCommercialization : optNullField parseStr (encodeProductFields p) "evaluationOrCommercialization" = some p.evaluationOrCommercialization :=
    optNullField_of_objGet parseStr JValue.jstr (fun a => rfl)
      (fun a h => JValue.noConfusion h) _ _ _ (by simp [encodeProductFields])
  have h_processorArchitecture : optNullField parseStr (encodeProductFields p) "processorArchitecture" = some p.processorArchitecture :=
    optNullField_of_objGet parseStr JValue.jstr (fun a => rfl)
      (fun a h => JValue.noConfusion h) _ _ _ (by simp [encodeProductFields])
  have h_processorCoreCount : optNullField parseStr (encodeProductFields p) "processorCoreCount" = some p.processorCoreCount :=
    optNullField_of_objGet parseStr JValue.jstr (fun a => rfl)
      (fun a h => JValue.noConfusion h) _ _ _ (by simp [encodeProductFields])
  have h_processorManufacturer : optNullField parseStr (encodeProductFields p) "processorManufacturer" = some p.processorManufacturer :=
    optNullField_of_objGet parseStr JValue.jstr (fun a => rfl)
      (fun a h => JValue.noConfusion h) _ _ _ (by simp [encodeProductFields])
  have h_processorTdp : optNullField parseStr (encodeProductFields p) "processorTdp" = some p.processorTdp :=
    optNullField_of_objGet parseStr JValue.jstr (fun a => rfl)
      (fun a h => JValue.noConfusion h) _ _ _ (by simp [encodeProductFields])
  have h_memory : optNullField parseStr (encodeProductFields p) "memory" = some p.memory :=
    optNullField_of_objGet parseStr JValue.jstr (fun a => rfl)
      (fun a h => JValue.noConfusion h) _ _ _ (by simp [encodeProductFields])
  simp [productParseG1, h_evaluationOrCommercialization, h_processorArchitecture, h_processorCoreCount, h_processorManufacturer, h_processorTdp, h_memory]

theorem productParseG2_enc (p : Product) :
    productParseG2 (encodeProductFields p) = some ⟨p.onboardStorage, p.inputVoltage, p.ioCount, p.wireless, p.operatingSystemBsp, p.operatingTemperatureMax⟩ := by
  have h_onboardStorage : optNullField parseStr (encodeProductFields p) "onboardStorage" = some p.onboardStorage :=
    optNullField_of_objGet parseStr JValue.jstr (fun a => rfl)
      (fun a h => JValue.noConfusion h) _ _ _ (by simp [encodeProductFields])
  have h_inputVoltage : optNullField parseStr (encodeProductFields p) "inputVoltage" = some p.inputVoltage :=
    optNullField_of_objGet parseStr JValue.jstr (fun a => rfl)
      (fun a h => JValue.noConfusion h) _ _ _ (by simp [encodeProductFields])
  have h_ioCount : optNullField (parseArr parseStr) (encodeProductFields p) "ioCount" = some p.ioCount :=
    optNullField_of_objGet (parseArr parseStr) encStrArr parseArr_encStrArr
      (fun a h => JValue.noConfusion h) _ _ _ (by simp [encodeProductFields])
  have h_wireless : optNullField (parseArr parseStr) (encodeProductFields p) "wireless" = some p.wireless :=
    optNullField_of_objGet (parseArr parseStr) encStrArr parseArr_encStrArr
      (fun a h => JValue.noConfusion h) _ _ _ (by simp [encodeProductFields])
  have h_operatingSystemBsp : optNullField (parseArr parseStr) (encodeProductFields p) "operatingSystemBsp" = some p.operatingSystemBsp :=
    optNullField_of_objGet (parseArr parseStr) encStrArr parseArr_encStrArr
      (fun a h => JValue.noConfusion h) _ _ _ (by simp [encodeProductFields])
  have h_operatingTemperatureMax : optNullField parseStr (encodeProductFields p) "operatingTemperatureMax" = some p.operatingTemperatureMax :=
    optNullField_of_objGet parseStr JValue.jstr (fun a => rfl)
      (fun a h => JValue.noConfusion h) _ _ _ (by simp [encodeProductFields])
  simp [productParseG2, h_onboardStorage, h_inputVoltage, h_ioCount, h_wireless, h_operatingSystemBsp, h_operatingTemperatureMax]

theorem productParseG3_enc (p : Product) :
    productParseG3 (encodeProductFields p) = some ⟨p.operatingTemperatureMin, p.certifications, p.price, p.stockAvailability⟩ := by
  have h_operatingTemperatureMin : optNullField parseStr (encodeProductFields p) "operatingTemperatureMin" = some p.operatingTemperatureMin :=
    optNullField_of_objGet parseStr JValue.jstr (fun a => rfl)
      (fun a h => JValue.noConfusion h) _ _ _ (by simp [encodeProductFields])
  have h_certifications : optNullField (parseArr parseStr) (encodeProductFields p) "certifications" = some p.certifications :=
    optNullField_of_objGet (parseArr parseStr) encStrArr parseArr_encStrArr
      (fun a h => JValue.noConfusion h) _ _ _ (by simp [encodeProductFields])
  have h_price : optNullField parseStr (encodeProductFields p) "price" = some p.price :=
    optNullField_of_objGet parseStr JValue.jstr (fun a => rfl)
      (fun a h => JValue.noConfusion h) _ _ _ (by simp [encodeProductFields])
  have h_stockAvailability : optNullField parseStr (encodeProductFields p) "stockAvailability" = some p.stockAvailability :=
    optNullField_of_objGet parseStr JValue.jstr (fun a => rfl)
      (fun a h => JValue.noConfusion h) _ _ _ (by simp [encodeProductFields])
  simp [productParseG3, h_operatingTemperatureMin, h_certifications, h_price, h_stockAvailability]

theorem productSchemaParse_enc (p : Product) :
    productSchemaParse (encodeProduct p) = some p := by
  simp [productSchemaParse, encodeProduct, productParseG0_enc, productParseG1_enc,
    productParseG2_enc, productParseG3_enc, mkProduct]

theorem mapM_productParse_map (ps : List Product) :
    ((ps.map encodeProduct).mapM productSchemaParse) = some ps := by
  induction ps with
  | nil => rfl
  | cons p rest ih =>
      rw [List.map_cons, List.mapM_cons, productSchemaParse_enc, ih]
      rfl

/-- Helper: `ResponseContentSchema.parse` of the object underlying a typed
response content is the identity. -/
theorem responseContent_roundtrip (c : ResponseContent) :
    responseContentParse (encodeResponseContent c) = some c := by
  have h_type : reqField parseStr (encodeResponseContentFields c) "type" = some c.type :=
    reqField_of_objGet parseStr _ _ (.jstr c.type) c.type
      (by simp [encodeResponseContentFields]) rfl
  have h_message : reqField parseStr (encodeResponseContentFields c) "message" =
      some c.message :=
    reqField_of_objGet parseStr _ _ (.jstr c.message) c.message
      (by simp [encodeResponseContentFields]) rfl
  have h_products : optField (parseArr productSchemaParse) (encodeResponseContentFields c)
      "products" = some c.products :=
    optField_of_objGet (parseArr productSchemaParse)
      (fun ps => .jarr (ps.map encodeProduct))
      (fun ps => by
        show (ps.map encodeProduct).mapM productSchemaParse = some ps
        exact mapM_productParse_map ps)
      _ _ _ (by simp [encodeResponseContentFields])
  have h_reasoning : optField parseStr (encodeResponseContentFields c) "reasoning" =
      some c.reasoning :=
    optField_of_objGet parseStr JValue.jstr (fun a => rfl) _ _ _
      (by simp [encodeResponseContentFields])
  have h_fup : optField parseFollowUp (encodeResponseContentFields c) "followUpQuestion" =
      some c.followUpQuestion :=
    optField_of_objGet parseFollowUp
      (fun f => match f with | .inl s => .jstr s | .inr xs => encStrArr xs)
      (fun f => by
        rcases f with s | xs
        · rfl
        · show parseFollowUp (encStrArr xs) = some (Sum.inr xs)
          show ((xs.map JValue.jstr).mapM parseStr).map Sum.inr = some (Sum.inr xs)
          rw [mapM_parseStr_map]
          rfl)
      _ _ _ (by simp [encodeResponseContentFields])
  have h_meta : optField parseRecord (encodeResponseContentFields c) "metadata" =
      some c.metadata :=
    optField_of_objGet parseRecord JValue.jobj (fun a => rfl) _ _ _
      (by simp [encodeResponseContentFields])
  show responseContentParse (.jobj (encodeResponseContentFields c)) = some c
  simp [responseContentParse, h_type, h_message, h_products, h_reasoning, h_fup, h_meta]


/-- Helper: `ResponseMessageSchema.parse` of the object underlying a typed
response message is the identity. -/
theorem responseMessage_roundtrip (m : ResponseMessage) :
    responseMessageSchemaParse (encodeResponseMessage m) = some m := by
  have h_mid : reqField parseStr (encodeResponseMessageFields m) "messageId" =
      some m.messageId :=
    reqField_of_objGet parseStr _ _ (.jstr m.messageId) m.messageId
      (by simp [encodeResponseMessageFields]) rfl
  have h_sid : reqField parseStr (encodeResponseMessageFields m) "sessionId" =
      some m.sessionId :=
    reqField_of_objGet parseStr _ _ (.jstr m.sessionId) m.sessionId
      (by simp [encodeResponseMessageFields]) rfl
  have h_msg : reqField responseContentParse (encodeResponseMessageFields m) "message" =
      some m.message :=
    reqField_of_objGet responseContentParse _ _ (encodeResponseContent m.message) m.message
      (by simp [encodeResponseMessageFields, encodeResponseContent])
      (responseContent_roundtrip m.message)
  have h_ic : reqField parseBool (encodeResponseMessageFields m) "isComplete" =
      some m.isComplete :=
    reqField_of_objGet parseBool _ _ (.jbool m.isComplete) m.isComplete
      (by simp [encodeResponseMessageFields]) rfl
  have h_mo : reqField parseModel (encodeResponseMessageFields m) "model" = some m.model :=
    reqField_of_objGet parseModel _ _ (.jstr m.model.toStr) m.model
      (by simp [encodeResponseMessageFields]) (parseModel_toStr m.model)
  have h_ar : reqField parseArchitecture (encodeResponseMessageFields m)
      "architectureChoice" = some m.architectureChoice :=
    reqField_of_objGet parseArchitecture _ _ (.jstr m.architectureChoice.toStr)
      m.architectureChoice (by simp [encodeResponseMessageFields])
      (parseArchitecture_toStr m.architectureChoice)
  have h_hm : reqField parseHistoryManagement (encodeResponseMessageFields m)
      "historyManagementChoice" = some m.historyManagementChoice :=
    reqField_of_objGet parseHistoryManagement _ _ (.jstr m.historyManagementChoice.toStr)
      m.historyManagementChoice (by simp [encodeResponseMessageFields])
      (parseHistoryManagement_toStr m.historyManagementChoice)
  have h_um : reqField (fun v => match v with | JValue.jbool false => some () | _ => none)
      (encodeResponseMessageFields m) "isUserMessage" = some () :=
    reqField_of_objGet _ _ _ (.jbool false) ()
      (by simp [encodeResponseMessageFields]) rfl
  have h_ts : reqField parseTimestampUnion (encodeResponseMessageFields m) "timestamp" =
      some m.timestamp :=
    reqField_of_objGet parseTimestampUnion _ _ (.jdate m.timestamp) m.timestamp
      (by simp [encodeResponseMessageFields]) rfl
  show responseMessageSchemaParse (.jobj (encodeResponseMessageFields m)) = some m
  simp [responseMessageSchemaParse, h_mid, h_sid, h_msg, h_ic, h_mo, h_ar, h_hm, h_um, h_ts]

/-- Helper: `RequestMessageSchema.parse` of the object underlying a typed
request message is the identity. -/
theorem requestMessage_roundtrip (m : RequestMessage) :
    requestMessageSchemaParse (encodeRequestMessage m) = some m := by
  have h_mid : reqField parseStr (encodeRequestMessageFields m) "messageId" =
      some m.messageId :=
    reqField_of_objGet parseStr _ _ (.jstr m.messageId) m.messageId
      (by simp [encodeRequestMessageFields]) rfl
  have h_ts : reqField parseDate (encodeRequestMessageFields m) "timestamp" =
      some m.timestamp :=
    reqField_of_objGet parseDate _ _ (.jdate m.timestamp) m.timestamp
      (by simp [encodeRequestMessageFields]) rfl
  have h_ic : reqField parseBool (encodeRequestMessageFields m) "isComplete" =
      some m.isComplete :=
    reqField_of_objGet parseBool _ _ (.jbool m.isComplete) m.isComplete
      (by simp [encodeRequestMessageFields]) rfl
  have h_mo : reqField parseModel (encodeRequestMessageFields m) "model" = some m.model :=
    reqField_of_objGet parseModel _ _ (.jstr m.model.toStr) m.model
      (by simp [encodeRequestMessageFields]) (parseModel_toStr m.model)
  have h_ar : reqField parseArchitecture (encodeRequestMessageFields m)
      "architectureChoice" = some m.architectureChoice :=
    reqField_of_objGet parseArchitecture _ _ (.jstr m.architectureChoice.toStr)
      m.architectureChoice (by simp [encodeRequestMessageFields])
      (parseArchitecture_toStr m.architectureChoice)
  have h_hm : reqField parseHistoryManagement (encodeRequestMessageFields m)
      "historyManagementChoice" = some m.historyManagementChoice :=
    reqField_of_objGet parseHistoryManagement _ _ (.jstr m.historyManagementChoice.toStr)
      m.historyManagementChoice (by simp [encodeRequestMessageFields])
      (parseHistoryManagement_toStr m.historyManagementChoice)
  have h_um : reqField (fun v => match v with | JValue.jbool true => some () | _ => none)
      (encodeRequestMessageFields m) "isUserMessage" = some () :=
    reqField_of_objGet _ _ _ (.jbool true) ()
      (by simp [encodeRequestMessageFields]) rfl
  have h_msg : reqField parseStr (encodeRequestMessageFields m) "message" =
      some m.message :=
    reqField_of_objGet parseStr _ _ (.jstr m.message) m.message
      (by simp [encodeRequestMessageFields]) rfl
  show requestMessageSchemaParse (.jobj (encodeRequestMessageFields m)) = some m
  simp [requestMessageSchemaParse, h_mid, h_ts, h_ic, h_mo, h_ar, h_hm, h_um, h_msg]

/-- Helper: the request-message schema rejects an encoded response message
(its isUserMessage literal is false), so the chat-history union falls
through to the response schema. -/
theorem requestMessageParse_response_none (m : ResponseMessage) :
    requestMessageSchemaParse (encodeResponseMessage m) = none := by
  have h_mid : reqField parseStr (encodeResponseMessageFields m) "messageId" =
      some m.messageId :=
    reqField_of_objGet parseStr _ _ (.jstr m.messageId) m.messageId
      (by simp [encodeResponseMessageFields]) rfl
  have h_ts : reqField parseDate (encodeResponseMessageFields m) "timestamp" =
      some m.timestamp :=
    reqField_of_objGet parseDate _ _ (.jdate m.timestamp) m.timestamp
      (by simp [encodeResponseMessageFields]) rfl
  have h_ic : reqField parseBool (encodeResponseMessageFields m) "isComplete" =
      some m.isComplete :=
    reqField_of_objGet parseBool _ _ (.jbool m.isComplete) m.isComplete
      (by simp [encodeResponseMessageFields]) rfl
  have h_mo : reqField parseModel (encodeResponseMessageFields m) "model" = some m.model :=
    reqField_of_objGet parseModel _ _ (.jstr m.model.toStr) m.model
      (by simp [encodeResponseMessageFields]) (parseModel_toStr m.model)
  have h_ar : reqField parseArchitecture (encodeResponseMessageFields m)
      "architectureChoice" = some m.architectureChoice :=
    reqField_of_objGet parseArchitecture _ _ (.jstr m.architectureChoice.toStr)
      m.architectureChoice (by simp [encodeResponseMessageFields])
      (parseArchitecture_toStr m.architectureChoice)
  have h_hm : reqField parseHistoryManagement (encodeResponseMessageFields m)
      "historyManagementChoice" = some m.historyManagementChoice :=
    reqField_of_objGet parseHistoryManagement _ _ (.jstr m.historyManagementChoice.toStr)
      m.historyManagementChoice (by simp [encodeResponseMessageFields])
      (parseHistoryManagement_toStr m.historyManagementChoice)
  have h_um : reqField (fun v => match v with | JValue.jbool true => some () | _ => none)
      (encodeResponseMessageFields m) "isUserMessage" = none := by
    have hobj : objGet (encodeResponseMessageFields m) "isUserMessage" =
        some (.jbool false) := by simp [encodeResponseMessageFields]
    unfold reqField
    rw [hobj]
    rfl
  show requestMessageSchemaParse (.jobj (encodeResponseMessageFields m)) = none
  simp [requestMessageSchemaParse, h_mid, h_ts, h_ic, h_mo, h_ar, h_hm, h_um]

/-- Helper: `ChatHistoryItemSchema.parse` of an encoded history item is
the identity. -/
theorem chatHistoryItem_roundtrip (it : ChatHistoryItem) :
    chatHistoryItemParse (encodeChatHistoryItem it) = some it := by
  rcases it with r | m
  · show chatHistoryItemParse (encodeRequestMessage r) = some (Sum.inl r)
    unfold chatHistoryItemParse
    rw [requestMessage_roundtrip r]
  · show chatHistoryItemParse (encodeResponseMessage m) = some (Sum.inr m)
    unfold chatHistoryItemParse
    rw [requestMessageParse_response_none m, responseMessage_roundtrip m]
    rfl

/-- Helper: parsing an encoded chat history element-wise is the
identity. -/
theorem mapM_chatHistory_map (items : List ChatHistoryItem) :
    ((items.map encodeChatHistoryItem).mapM chatHistoryItemParse) = some items := by
  induction items with
  | nil => rfl
  | cons it rest ih =>
      rw [List.map_cons, List.mapM_cons, chatHistoryItem_roundtrip, ih]
      rfl

/-- Claim C6: chat state persistence round-trips — for every chat context
(and any serialized state value), deserializeChatState after
serializeChatState returns the context unchanged in every field except
webSocketRef, which is reset to undefined. -/
theorem c6_chat_state_roundtrip (c : ChatContext) (currentState : JValue) :
    deserializeChatState (serializeChatState c currentState) =
      .ok { c with webSocketRef := none } := by
  have h_sid : reqField parseStr (serializeChatStateFields c currentState) "sessionId" =
      some c.sessionId :=
    reqField_of_objGet parseStr _ _ (.jstr c.sessionId) c.sessionId
      (by simp [serializeChatStateFields]) rfl
  have h_hist : reqField (parseArr chatHistoryItemParse)
      (serializeChatStateFields c currentState) "chatHistory" = some c.chatHistory :=
    reqField_of_objGet (parseArr chatHistoryItemParse) _ _
      (.jarr (c.chatHistory.map encodeChatHistoryItem)) c.chatHistory
      (by simp [serializeChatStateFields])
      (by
        show ((c.chatHistory.map encodeChatHistoryItem).mapM chatHistoryItemParse) =
          some c.chatHistory
        exact mapM_chatHistory_map c.chatHistory)
  have h_mo : reqField parseModel (serializeChatStateFields c currentState) "model" =
      some c.model :=
    reqField_of_objGet parseModel _ _ (.jstr c.model.toStr) c.model
      (by simp [serializeChatStateFields]) (parseModel_toStr c.model)
  have h_ar : reqField parseArchitecture (serializeChatStateFields c currentState)
      "architecture" = some c.architecture :=
    reqField_of_objGet parseArchitecture _ _ (.jstr c.architecture.toStr) c.architecture
      (by simp [serializeChatStateFields]) (parseArchitecture_toStr c.architecture)
  have h_hm : reqField parseHistoryManagement (serializeChatStateFields c currentState)
      "historyManagement" = some c.historyManagement :=
    reqField_of_objGet parseHistoryManagement _ _ (.jstr c.historyManagement.toStr)
      c.historyManagement (by simp [serializeChatStateFields])
      (parseHistoryManagement_toStr c.historyManagement)
  have h_ws : objGet (serializeChatStateFields c currentState) "webSocketRef" = none := by
    simp [serializeChatStateFields]
  have hparse : chatContextSchemaParse (serializeChatState c currentState) =
      some { c with webSocketRef := none } := by
    show chatContextSchemaParse (.jobj (serializeChatStateFields c currentState)) = _
    simp [chatContextSchemaParse, h_sid, h_hist, h_mo, h_ar, h_hm, h_ws]
  unfold deserializeChatState
  rw [hparse]

/-- Helper: looking up a key immediately after assigning it returns the
assigned value. -/
theorem objGet_objSet_same (o : List (String × JValue)) (k : String) (v : JValue) :
    objGet (objSet o k v) k = some v := by
  induction o with
  | nil => simp [objSet, objGet]
  | cons e rest ih =>
      obtain ⟨k1, v1⟩ := e
      by_cases hk : k1 = k
      · simp [objSet, objGet, hk]
      · simp [objSet, objGet, hk, ih]

/-- Helper: assigning the same key twice keeps only the second value. -/
theorem objSet_objSet (o : List (String × JValue)) (k : String) (v w : JValue) :
    objSet (objSet o k v) k w = objSet o k w := by
  induction o with
  | nil => simp [objSet]
  | cons e rest ih =>
      obtain ⟨k1, v1⟩ := e
      by_cases hk : k1 = k
      · simp [objSet, hk]
      · simp [objSet, hk, ih]

/-- Helper: the id-to-messageId fix-up step as the specification phrases
it (renaming happens exactly when messageId is absent and id is
present). -/
theorem fixMessageId_spec (o : List (String × JValue)) :
    fixMessageId o =
      if objHas o "messageId" then o
      else
        match objGet o "id" with
        | some idv => objDelete (objSet o "messageId" idv) "id"
        | none => o := by
  unfold fixMessageId objHas
  cases hid : objGet o "id" <;> cases hmsg : objGet o "messageId" <;>
    simp [hid, hmsg, Option.isSome]

/-- Helper: the isUserMessage default step as the specification phrases
it. -/
theorem defaultIsUserMessage_spec (o : List (String × JValue)) :
    defaultIsUserMessage o =
      if objHas o "isUserMessage" then o
      else objSet o "isUserMessage" (.jbool false) := by
  unfold defaultIsUserMessage objHas
  cases hu : objGet o "isUserMessage" <;> simp [hu, Option.isSome]

/-- Claim C4: on every input object, responseMessageFromJson behaves
exactly as the specification describes: keys are camelCased, a
string-valued message is JSON-parsed (an unparseable string throws), the
response-to-message rename happens exactly when message is undefined, a
top-level id becomes messageId exactly when messageId is absent, a missing
isUserMessage defaults to false, and the function throws exactly when the
message string is invalid JSON or the normalized object fails
ResponseMessageSchema validation. -/
theorem c4_response_normalization (jsparse : String → Option JValue)
    (fields : List (String × JValue)) :
    responseMessageFromJson jsparse (.jobj fields) =
      match responseNormalizeSpec jsparse fields with
      | .error _ => .error "Invalid response data"
      | .ok n =>
          match responseMessageSchemaParse (.jobj n) with
          | some m => .ok m
          | none => .error "Invalid response data" := by
  unfold responseMessageFromJson responseNormalizeSpec normalizeMessageField
    renameResponseField
  simp only [transformKeys]
  generalize objOfEntries (fields.map fun e => (snakeToCamelKey e.1, e.2)) = camel
  cases hm : objGet camel "message" with
  | none =>
      simp only [hm, fixMessageId_spec, defaultIsUserMessage_spec, Except.bind, bind,
        Except.pure, pure]
  | some v =>
      cases v with
      | jstr s =>
          cases hj : jsparse s with
          | none =>
              simp only [hm, hj, Except.bind, bind, Except.pure, pure]
          | some mv =>
              simp only [hm, hj, Except.bind, bind, Except.pure, pure,
                objGet_objSet_same, objSet_objSet, fixMessageId_spec,
                defaultIsUserMessage_spec]
      | jnull =>
          simp only [hm, fixMessageId_spec, defaultIsUserMessage_spec, Except.bind, bind,
            Except.pure, pure]
      | jbool b =>
          simp only [hm, fixMessageId_spec, defaultIsUserMessage_spec, Except.bind, bind,
            Except.pure, pure]
      | jnum q =>
          simp only [hm, fixMessageId_spec, defaultIsUserMessage_spec, Except.bind, bind,
            Except.pure, pure]
      | jdate d =>
          simp only [hm, fixMessageId_spec, defaultIsUserMessage_spec, Except.bind, bind,
            Except.pure, pure]
      | jarr xs =>
          simp only [hm, fixMessageId_spec, defaultIsUserMessage_spec, Except.bind, bind,
            Except.pure, pure]
      | jobj fs =>
          simp only [hm, fixMessageId_spec, defaultIsUserMessage_spec, Except.bind, bind,
            Except.pure, pure]


/-- The reference LCS length of an empty first list is 0. -/
theorem lcsSpec_nil_left (b : List String) : lcsSpec [] b = 0 := by
  cases b <;> simp [lcsSpec]

/-- The reference LCS length of an empty second list is 0. -/
theorem lcsSpec_nil_right (a : List String) : lcsSpec a [] = 0 := by
  cases a <;> simp [lcsSpec]

/-- Unfolding of the reference LCS recurrence on two cons cells. -/
theorem lcsSpec_cons_cons (x y : String) (xs ys : List String) :
    lcsSpec (x :: xs) (y :: ys) =
      if x = y then lcsSpec xs ys + 1
      else max (lcsSpec xs (y :: ys)) (lcsSpec (x :: xs) ys) := by
  simp [lcsSpec]

/-- Some common subsequence of `a` and `b` has length `lcsSpec a b`. -/
theorem lcsSpec_exists (a : List String) :
    ∀ b : List String, ∃ l : List String, l.Sublist a ∧ l.Sublist b ∧ l.length = lcsSpec a b := by
  induction a with
  | nil =>
      intro b
      exact ⟨[], List.nil_sublist [], List.nil_sublist b, by rw [lcsSpec_nil_left]; rfl⟩
  | cons x xs iha =>
      intro b
      induction b with
      | nil =>
          exact ⟨[], List.nil_sublist _, List.nil_sublist [], by
            rw [lcsSpec_nil_right]; rfl⟩
      | cons y ys ihb =>
          by_cases hxy : x = y
          · subst hxy
            obtain ⟨l, h1, h2, h3⟩ := iha ys
            exact ⟨x :: l, h1.cons₂ x, h2.cons₂ x, by
              rw [lcsSpec_cons_cons, if_pos rfl, List.length_cons, h3]⟩
          · rcases le_total (lcsSpec (x :: xs) ys) (lcsSpec xs (y :: ys)) with hle | hle
            · obtain ⟨l, h1, h2, h3⟩ := iha (y :: ys)
              refine ⟨l, h1.cons x, h2, ?_⟩
              rw [lcsSpec_cons_cons, if_neg hxy, max_eq_left hle, h3]
            · obtain ⟨l, h1, h2, h3⟩ := ihb
              refine ⟨l, h1, h2.cons y, ?_⟩
              rw [lcsSpec_cons_cons, if_neg hxy, max_eq_right hle, h3]

/-- Every common subsequence of `a` and `b` has length at most `lcsSpec a b`. -/
theorem lcsSpec_le (a : List String) :
    ∀ (b l : List String), l.Sublist a → l.Sublist b → l.length ≤ lcsSpec a b := by
  induction a with
  | nil =>
      intro b l h1 _
      rw [List.sublist_nil.1 h1, lcsSpec_nil_left]
      simp
  | cons x xs iha =>
      intro b
      induction b with
      | nil =>
          intro l _ h2
          rw [List.sublist_nil.1 h2, lcsSpec_nil_right]
          simp
      | cons y ys ihb =>
          intro l h1 h2
          by_cases hxy : x = y
          · subst hxy
            rw [lcsSpec_cons_cons, if_pos rfl]
            cases l with
            | nil => simp
            | cons z l₂ =>
                cases h1 with
                | cons _ h1x =>
                    cases h2 with
                    | cons _ h2x =>
                        have := iha ys (z :: l₂) h1x h2x
                        omega
                    | cons₂ _ h2x =>
                        have hl : l₂.Sublist xs :=
                          ((List.Sublist.refl l₂).cons x).trans h1x
                        have := iha ys l₂ hl h2x
                        simp only [List.length_cons]
                        omega
                | cons₂ _ h1x =>
                    cases h2 with
                    | cons _ h2x =>
                        have hl : l₂.Sublist ys :=
                          ((List.Sublist.refl l₂).cons x).trans h2x
                        have := iha ys l₂ h1x hl
                        simp only [List.length_cons]
                        omega
                    | cons₂ _ h2x =>
                        have := iha ys l₂ h1x h2x
                        simp only [List.length_cons]
                        omega
          · rw [lcsSpec_cons_cons, if_neg hxy]
            cases l with
            | nil => simp
            | cons z l₂ =>
                cases h1 with
                | cons _ h1x =>
                    exact le_trans (iha (y :: ys) (z :: l₂) h1x h2) (Nat.le_max_left _ _)
                | cons₂ _ h1x =>
                    cases h2 with
                    | cons _ h2x =>
                        exact le_trans (ihb (x :: l₂) (h1x.cons₂ x) h2x)
                          (Nat.le_max_right _ _)
                    | cons₂ _ h2x => exact absurd rfl hxy

/-- The reference LCS length is symmetric in its arguments. -/
theorem lcsSpec_comm (a b : List String) : lcsSpec a b = lcsSpec b a := by
  apply le_antisymm
  · obtain ⟨l, h1, h2, hl⟩ := lcsSpec_exists a b
    rw [← hl]
    exact lcsSpec_le b a l h2 h1
  · obtain ⟨l, h1, h2, hl⟩ := lcsSpec_exists b a
    rw [← hl]
    exact lcsSpec_le a b l h2 h1

/-- Reversing both lists does not decrease the reference LCS length. -/
theorem lcsSpec_rev_le (a b : List String) :
    lcsSpec a b ≤ lcsSpec a.reverse b.reverse := by
  obtain ⟨l, h1, h2, hl⟩ := lcsSpec_exists a b
  calc lcsSpec a b = l.reverse.length := by rw [List.length_reverse, hl]
    _ ≤ lcsSpec a.reverse b.reverse :=
        lcsSpec_le a.reverse b.reverse l.reverse h1.reverse h2.reverse

/-- The reference LCS length is invariant under reversing both lists. -/
theorem lcsSpec_reverse (a b : List String) :
    lcsSpec a.reverse b.reverse = lcsSpec a b := by
  apply le_antisymm
  · have h := lcsSpec_rev_le a.reverse b.reverse
    simpa using h
  · exact lcsSpec_rev_le a b

/-- The reference LCS length of a list with itself is its length. -/
theorem lcsSpec_self (a : List String) : lcsSpec a a = a.length := by
  apply le_antisymm
  · obtain ⟨l, h1, _, hl⟩ := lcsSpec_exists a a
    rw [← hl]
    exact h1.length_le
  · exact lcsSpec_le a a a (List.Sublist.refl a) (List.Sublist.refl a)

/-- Taking one more element appends the element at the cut index. -/
theorem take_succ_get (l : List String) :
    ∀ (i : Nat) (h : i < l.length), l.take (i + 1) = l.take i ++ [l.get ⟨i, h⟩] := by
  induction l with
  | nil => intro i h; simp at h
  | cons x xs ih =>
      intro i h
      cases i with
      | zero => simp
      | succ n =>
          have h2 : n < xs.length := Nat.lt_of_succ_lt_succ h
          show x :: xs.take (n + 1) = x :: (xs.take n ++ [xs.get ⟨n, h2⟩])
          rw [ih n h2]

/-- Within bounds, `getD` with the default "" returns the indexed element. -/
theorem getD_eq_get_str (l : List String) :
    ∀ (i : Nat) (h : i < l.length), l.getD i "" = l.get ⟨i, h⟩ := by
  induction l with
  | nil => intro i h; simp at h
  | cons x xs ih =>
      intro i h
      cases i with
      | zero => rfl
      | succ n => exact ih n (Nat.lt_of_succ_lt_succ h)

/-- The dp table entry dp[i][j] equals the reference LCS length of the reversed prefixes of lengths i and j. -/
theorem lcsDP_eq (a1 a2 : List String) :
    ∀ i, i ≤ a1.length → ∀ j, j ≤ a2.length →
      lcsDP a1 a2 i j = lcsSpec ((a1.take i).reverse) ((a2.take j).reverse) := by
  intro i
  induction i with
  | zero =>
      intro _ j _
      simp [lcsDP, lcsSpec_nil_left]
  | succ i iha =>
      intro hi j
      induction j with
      | zero =>
          intro _
          simp [lcsDP, lcsSpec_nil_right]
      | succ j ihb =>
          intro hj
          have hi' : i < a1.length := hi
          have hj' : j < a2.length := hj
          have hx : a1.take (i + 1) = a1.take i ++ [a1.get ⟨i, hi'⟩] :=
            take_succ_get a1 i hi'
          have hy : a2.take (j + 1) = a2.take j ++ [a2.get ⟨j, hj'⟩] :=
            take_succ_get a2 j hj'
          simp only [lcsDP]
          rw [iha (le_of_lt hi') j (le_of_lt hj'), iha (le_of_lt hi') (j + 1) hj,
            ihb (le_of_lt hj')]
          rw [hx, hy]
          simp only [List.reverse_append, List.reverse_cons, List.reverse_nil,
            List.nil_append, List.singleton_append]
          rw [lcsSpec_cons_cons]
          rw [getD_eq_get_str a1 i hi', getD_eq_get_str a2 j hj']

/-- Claim C10: `longestCommonSubsequence(arr1, arr2)` equals the length of a longest common subsequence of arr1 and arr2 according to the standard recursive reference definition `lcsSpec`; in particular it is symmetric in its arguments and `longestCommonSubsequence(a, a)` equals `a.length`. -/
theorem c10_lcs_correct (arr1 arr2 : List String) :
    longestCommonSubsequence arr1 arr2 = lcsSpec arr1 arr2 ∧
    longestCommonSubsequence arr1 arr2 = longestCommonSubsequence arr2 arr1 ∧
    longestCommonSubsequence arr1 arr1 = arr1.length := by
  have key : ∀ (a b : List String), longestCommonSubsequence a b = lcsSpec a b := by
    intro a b
    have h := lcsDP_eq a b a.length le_rfl b.length le_rfl
    rw [show longestCommonSubsequence a b = lcsDP a b a.length b.length from rfl, h,
      List.take_length, List.take_length, lcsSpec_reverse]
  refine ⟨key arr1 arr2, ?_, ?_⟩
  · rw [key arr1 arr2, key arr2 arr1, lcsSpec_comm]
  · rw [key arr1 arr1, lcsSpec_self]


end ThroughPut
